import Mathlib

/-!
Verification development for the fastapi-vlr pipeline
(`backend/utils/download_vlr_pdfs.py`, `pdf_to_csv.py`,
`pdf_to_csv_recursive.py`, `process_csv.py`, `search_csv.py`).

The Python sources are shallowly embedded: pure string manipulation is
re-implemented over `List Char`, the filesystem and the HTTP world are
explicit state / oracle records, and every external call (requests,
hashlib, BeautifulSoup, selenium, sklearn) is modelled as an input to the
function that performs it.
-/

namespace Vlr

/-! ### ASCII string helpers (models of the Python `str` operations used) -/

/-- Model of Python `s.lower()` restricted to ASCII (the only characters the
scripts compare against); uses core `Char.toLower`. -/
def strLower (s : String) : String :=
  String.mk (s.data.map Char.toLower)

/-- `dataHasPre pat l` holds when `pat` is an initial block of `l`
(model of Python `str.startswith` on raw character lists). -/
def dataHasPre : List Char → List Char → Bool
  | [], _ => true
  | _ :: _, [] => false
  | p :: ps, c :: cs => p == c && dataHasPre ps cs

/-- `dataHasSub pat l` holds when `pat` occurs contiguously inside `l`
(model of Python `pat in s`). -/
def dataHasSub (pat : List Char) : List Char → Bool
  | [] => dataHasPre pat []
  | c :: cs => dataHasPre pat (c :: cs) || dataHasSub pat cs

/-- Model of Python `pat in s` for strings. -/
def strContainsSub (s pat : String) : Bool :=
  dataHasSub pat.data s.data

/-- Model of Python `s.endswith(pat)`. -/
def strEndsWith (s pat : String) : Bool :=
  s.data.drop (s.data.length - pat.data.length) == pat.data

/-- Model of the Python split on the slash character (keeps empty pieces, like `str.split`
with an explicit separator). -/
def splitSlash : List Char → List (List Char)
  | [] => [[]]
  | c :: cs =>
    if c = '/' then [] :: splitSlash cs
    else
      match splitSlash cs with
      | [] => [[c]]
      | g :: gs => (c :: g) :: gs

/-- Model of the Python idiom taking the last slash-component of a URL. -/
def urlBasename (u : String) : String :=
  String.mk ((splitSlash u.data).getLastD [])

/-- Helper for `splitext`: position of the last `'.'` that is preceded by at
least one non-dot character, scanning left to right. -/
def extSplitIdx : List Char → Nat → Bool → Option Nat → Option Nat
  | [], _, _, best => best
  | c :: cs, i, seenNonDot, best =>
    if c = '.' then extSplitIdx cs (i + 1) seenNonDot (if seenNonDot then some i else best)
    else extSplitIdx cs (i + 1) true best

/-- Model of Python `os.path.splitext` on a bare filename (no directory
separators): split at the last dot, except that a name consisting only of
leading dots plus an extension has no extension. -/
def splitext (s : String) : String × String :=
  match extSplitIdx s.data 0 false none with
  | none => (s, "")
  | some i => (String.mk (s.data.take i), String.mk (s.data.drop i))

/-- Model of Python `h[:8]` on the hex digest string. -/
def strTake8 (s : String) : String :=
  String.mk (s.data.take 8)

/-! ### CSV files (`initialize_csv`, `add_to_csv`, `load_csv_to_set`)

A CSV file on disk is `Option (List Row)`: `none` when the file does not
exist, `some rows` otherwise (the header, when present, is simply the first
row, exactly as in the Python code which always writes it first and always
skips the first row when reading). -/

/-- One CSV row (Python writes a list of string fields). -/
abbrev Row := List String

/-- A CSV file on disk: `none` = file does not exist. -/
abbrev CsvFile := Option (List Row)

/-- Model of `initialize_csv(file_path, headers)`: create the file with the
header row only if it does not already exist. -/
def initialize_csv (f : CsvFile) (headers : Row) : CsvFile :=
  match f with
  | none => some [headers]
  | some rows => some rows

/-- Model of `add_to_csv(file_path, row)`: open in append mode (creating an
empty file when missing) and write one row at the end. -/
def add_to_csv (f : CsvFile) (row : Row) : CsvFile :=
  some (f.getD [] ++ [row])

/-- Model of `load_csv_to_set(file_path, column_index)`: missing or empty
file gives the empty set; otherwise skip the header row and collect the
given column of every row long enough to have it.  The Python `set` is
modelled as a list used only through membership. -/
def load_csv_to_set (f : CsvFile) (col : Nat) : List String :=
  match f with
  | none => []
  | some rows =>
    if rows.isEmpty then []
    else (rows.drop 1).filterMap (fun r => r.get? col)

/-! ### The crawl/download state (`download_vlr_pdfs.py`)

External effects are oracles: `World.fetch` is `requests.Session.get`
(`none` = a raised `RequestException`), `World.links u` is the list of
`urljoin(u, href)` values produced by BeautifulSoup over the fetched body,
`World.seleniumLinks u` is the same for the selenium-rendered page (`none`
= selenium failed), and the MD5 hex digest `hashlib.md5` is passed in as a
function `md5` from byte content to its digest string. -/

/-- Downloaded byte content (the full byte stream of a response). -/
abbrev Content := List Nat

/-- An HTTP response: status code, declared Content-Type, body bytes. -/
structure Response where
  status : Nat
  contentType : String
  body : Content
deriving DecidableEq

/-- The deterministic external world of one crawl run. -/
structure World where
  fetch : String → Option Response
  links : String → List String
  seleniumLinks : String → Option (List String)

/-- Observable events of a run, in order: `visit u` = `u` added to the
visited set and its row appended to `visited_urls.csv`, `get u` =
`session.get(u)` issued, `selenium u` = headless-browser render of `u`,
`writeTemp nm` = temporary file `nm` written under `temp/`. -/
inductive Ev
  | visit (u : String)
  | get (u : String)
  | selenium (u : String)
  | writeTemp (nm : String)
deriving DecidableEq

/-- A stored PDF: hash-prefix subdirectory, file name inside it, content. -/
structure FileEntry where
  subdir : String
  name : String
  content : Content
deriving DecidableEq

/-- The on-disk artifacts of the downloader. -/
structure Disk where
  downloadedCsv : CsvFile
  visitedCsv : CsvFile
  uniqueCsv : CsvFile
  duplicateCsv : CsvFile
  files : List FileEntry
deriving DecidableEq

/-- Full state of a run: disk plus the two in-memory sets. -/
structure St extends Disk where
  visitedUrls : List String
  uniqueHashes : List String
deriving DecidableEq

/-- `BASE_DOWNLOAD_DIR` from the script. -/
def BASE_DOWNLOAD_DIR : String := "precompute-data/download_vlr_pdfs"

/-- Header rows of the four CSV files (from `main`). -/
def downloadedHeader : Row := ["PDF_URL", "Local_File_Path"]

/-- Header of `visited_urls.csv`. -/
def visitedHeader : Row := ["Visited_URL", "Timestamp"]

/-- Header of `unique_pdfs.csv`. -/
def uniqueHeader : Row := ["PDF_URL", "Local_File_Path", "Hash"]

/-- Header of `duplicate_pdfs.csv`. -/
def duplicateHeader : Row := ["PDF_URL", "Local_File_Path", "Hash"]

/-- Model of `is_pdf_url(url)`: the lowered URL ends with `.pdf`. -/
def is_pdf_url (u : String) : Bool :=
  strEndsWith (strLower u) ".pdf"

/-- Model of `response.raise_for_status()` raising: requests raises
`HTTPError` exactly for status codes in `[400, 600)`. -/
def rfs (status : Nat) : Prop := 400 ≤ status ∧ status < 600

instance : DecidablePred rfs := fun s => by
  unfold rfs
  infer_instance

/-- Model of the Content-Type gate in `download_pdf`:
the lowered Content-Type header must contain `application/pdf`. -/
def ctIsPdf (ct : String) : Bool :=
  strContainsSub (strLower ct) "application/pdf"

/-- Model of deriving `original_filename` from the URL in `download_pdf`:
last `/`-component, with `.pdf` appended when it does not already end in
`.pdf` (case-insensitively). -/
def filenameFromUrl (u : String) : String :=
  let nm := urlBasename u
  if strEndsWith (strLower nm) ".pdf" then nm else nm ++ ".pdf"

/-- The candidate filename `base_counter.ext` of the collision
loop. -/
def suffixName (base ext : String) (counter : Nat) : String :=
  base ++ "_" ++ Nat.repr counter ++ ext

/-- The `while os.path.exists(final_file_path)` loop of `download_pdf`,
with explicit fuel (the loop terminates because the directory holds
finitely many entries; `pickName` supplies fuel `existing.length + 1`,
which is enough by pigeonhole). -/
def pickNameLoop (existing : List String) (base ext : String) : Nat → Nat → String
  | 0, c => suffixName base ext c
  | fuel + 1, c =>
    if suffixName base ext c ∈ existing then pickNameLoop existing base ext fuel (c + 1)
    else suffixName base ext c

/-- Filename-conflict resolution of `download_pdf` (lines 143-149): keep the
original name when free, otherwise take the first `base_N.ext` (N = 1, 2, …)
that does not exist in the subdirectory. -/
def pickName (existing : List String) (orig : String) : String :=
  if orig ∈ existing then
    pickNameLoop existing (splitext orig).1 (splitext orig).2 (existing.length + 1) 1
  else orig

/-- Names already stored in a given hash-prefix subdirectory. -/
def namesIn (files : List FileEntry) (sub : String) : List String :=
  (files.filter (fun e => e.subdir == sub)).map (fun e => e.name)

/-- Model of `download_pdf(pdf_url, session, unique_hashes)`. -/
def download_pdf (w : World) (md5 : Content → String) (u : String) (s : St) :
    St × List Ev :=
  match w.fetch u with
  | none => (s, [Ev.get u])
  | some r =>
    if rfs r.status then (s, [Ev.get u])
    else if ¬ ctIsPdf r.contentType then (s, [Ev.get u])
    else
      let nm := filenameFromUrl u
      let h := md5 r.body
      if h ∈ s.uniqueHashes then
        ({ s with duplicateCsv := add_to_csv s.duplicateCsv [u, nm, h] },
         [Ev.get u, Ev.writeTemp nm])
      else
        let sub := strTake8 h
        let finalName := pickName (namesIn s.files sub) nm
        let path := BASE_DOWNLOAD_DIR ++ "/" ++ sub ++ "/" ++ finalName
        ({ s with
            files := s.files ++ [⟨sub, finalName, r.body⟩],
            uniqueCsv := add_to_csv s.uniqueCsv [u, path, h],
            downloadedCsv := add_to_csv s.downloadedCsv [u, path],
            uniqueHashes := s.uniqueHashes ++ [h] },
         [Ev.get u, Ev.writeTemp nm])

/-- The two lines of `download_pdfs_from_url` that record a URL as visited
(in-memory `add` plus `add_to_csv` of `[url, timestamp]`). -/
def markVisited (s : St) (u t : String) : St :=
  { s with
      visitedUrls := s.visitedUrls ++ [u],
      visitedCsv := add_to_csv s.visitedCsv [u, t] }

/-- The loop over every anchor href found in the page: download every
link whose joined URL looks like a PDF. -/
def processLinks (w : World) (md5 : Content → String) : List String → St → St × List Ev
  | [], s => (s, [])
  | l :: ls, s =>
    if is_pdf_url l then
      let p := download_pdf w md5 l s
      let q := processLinks w md5 ls p.1
      (q.1, p.2 ++ q.2)
    else processLinks w md5 ls s

/-- Model of `download_pdfs_from_url(url, visited_urls, session,
unique_hashes)`; `t` is the `datetime.now()` timestamp string of this
call. -/
def download_pdfs_from_url (w : World) (md5 : Content → String) (t u : String) (s : St) :
    St × List Ev :=
  if u ∈ s.visitedUrls then (s, [])
  else
    let s1 := markVisited s u t
    if is_pdf_url u then
      let p := download_pdf w md5 u s1
      (p.1, Ev.visit u :: p.2)
    else
      match w.fetch u with
      | none => (s1, [Ev.visit u, Ev.get u])
      | some r =>
        if r.status = 403 then
          match w.seleniumLinks u with
          | none => (s1, [Ev.visit u, Ev.get u, Ev.selenium u])
          | some links =>
            let p := processLinks w md5 links s1
            (p.1, Ev.visit u :: Ev.get u :: Ev.selenium u :: p.2)
        else if rfs r.status then (s1, [Ev.visit u, Ev.get u])
        else
          let p := processLinks w md5 (w.links u) s1
          (p.1, Ev.visit u :: Ev.get u :: p.2)

/-- The `for url in urls_to_scrape` loop of `main`; `clock i` is the
timestamp of the `i`-th call. -/
def runSeeds (w : World) (md5 : Content → String) (clock : Nat → String) :
    List String → Nat → St → St × List Ev
  | [], _, s => (s, [])
  | u :: us, i, s =>
    let p := download_pdfs_from_url w md5 (clock i) u s
    let q := runSeeds w md5 clock us (i + 1) p.1
    (q.1, p.2 ++ q.2)

/-- The initialisation prologue of `main()`: create the four CSV files
when missing and hydrate the visited-URL and unique-hash sets from the
persisted records. -/
def mainInit (d : Disk) : St :=
  { downloadedCsv := initialize_csv d.downloadedCsv downloadedHeader,
    visitedCsv := initialize_csv d.visitedCsv visitedHeader,
    uniqueCsv := initialize_csv d.uniqueCsv uniqueHeader,
    duplicateCsv := initialize_csv d.duplicateCsv duplicateHeader,
    files := d.files,
    visitedUrls := load_csv_to_set (initialize_csv d.visitedCsv visitedHeader) 0,
    uniqueHashes := load_csv_to_set (initialize_csv d.uniqueCsv uniqueHeader) 2 }

/-- Model of `main()`: initialise the four CSV files, hydrate the visited
and hash sets from disk, then crawl every seed. -/
def runMain (w : World) (md5 : Content → String) (clock : Nat → String)
    (seeds : List String) (d : Disk) : Disk × List Ev :=
  let p := runSeeds w md5 clock seeds 0 (mainInit d)
  (p.1.toDisk, p.2)

/-- A bare sequence of `download_pdf` calls, in the order in which the
crawler encounters PDF URLs (used to state the dedup claims: these are the
only operations of the program that touch the dedup state). -/
def downloadAll (w : World) (md5 : Content → String) : List String → St → St × List Ev
  | [], s => (s, [])
  | u :: us, s =>
    let p := download_pdf w md5 u s
    let q := downloadAll w md5 us p.1
    (q.1, p.2 ++ q.2)

/-- The `Hash` column (index 2) of the data rows of `unique_pdfs.csv`. -/
def hashColumn (s : St) : List String :=
  ((s.uniqueCsv.getD []).drop 1).filterMap (fun r => r.get? 2)

/-- All state components only ever grow at the end: each CSV row list,
the stored files, and the two in-memory sets of the old state are initial
segments of those of the new state. -/
structure Mono (s s' : St) : Prop where
  dl : s.downloadedCsv.getD [] <+: s'.downloadedCsv.getD []
  vis : s.visitedCsv.getD [] <+: s'.visitedCsv.getD []
  uniq : s.uniqueCsv.getD [] <+: s'.uniqueCsv.getD []
  dup : s.duplicateCsv.getD [] <+: s'.duplicateCsv.getD []
  files : s.files <+: s'.files
  visited : s.visitedUrls <+: s'.visitedUrls
  hashes : s.uniqueHashes <+: s'.uniqueHashes

/-- Dedup-state invariant established by `main`: `unique_pdfs.csv` exists
and is nonempty (header written), its `Hash` column is contained in the
in-memory hash set (`main` hydrates the set from exactly this column), and
no hash appears twice in it. -/
def UInv (s : St) : Prop :=
  (∃ rows, s.uniqueCsv = some rows ∧ rows ≠ []) ∧
  (∀ h ∈ hashColumn s, h ∈ s.uniqueHashes) ∧
  (hashColumn s).Nodup

/-- The `Visited_URL` column (index 0) of the data rows of
`visited_urls.csv`. -/
def visitedColumn (s : St) : List String :=
  ((s.visitedCsv.getD []).drop 1).filterMap (fun r => r.get? 0)

/-- Visited-state invariant established by `main`: `visited_urls.csv`
exists and is nonempty, and every URL of the in-memory visited set appears
in its first column. -/
def VInv (s : St) : Prop :=
  (∃ rows, s.visitedCsv = some rows ∧ rows ≠ []) ∧
  (∀ v ∈ s.visitedUrls, v ∈ visitedColumn s)

/-- All four CSV files exist on disk. -/
def csvSome (s : St) : Prop :=
  s.downloadedCsv.isSome ∧ s.visitedCsv.isSome ∧
  s.uniqueCsv.isSome ∧ s.duplicateCsv.isSome

/-! ### Text extraction (`pdf_to_csv.py` / `pdf_to_csv_recursive.py`)

`pdfplumber.open` either fails (`Except.error`, any exception) or yields
the list of pages; `page.extract_text()` yields `Option String` (`none`
models Python `None`). -/

/-- Result of `page.extract_text()` for one page. -/
abbrev PageText := Option String

/-- Contribution of one page to the document string in
`pdf_to_csv_recursive.py` (lines 28-32, where the truthiness test guards
every use of `page_text`):
`all_text += page_text plus newline if page_text else nothing` — a page
whose text is `None` or empty (falsy) contributes nothing, any other page
contributes its text followed by a newline.  `pdf_to_csv.py` computes the
same contribution only for pages that are not `None` (see
`extractPagesV1`). -/
def pageContrib : PageText → String
  | none => ""
  | some t => if t = "" then "" else t ++ "\n"

/-- The page loop of `extract_text_from_pdf` in `pdf_to_csv_recursive.py`,
accumulating `all_text`. -/
def extractPages (pages : List PageText) : String :=
  pages.foldl (fun acc p => acc ++ pageContrib p) ""

/-- Model of `extract_text_from_pdf(pdf_path)` from
`pdf_to_csv_recursive.py`: any exception while opening or reading the PDF
is caught and yields the empty string; pages are folded with
`pageContrib`. -/
def extract_text_from_pdf_recursive : Except Unit (List PageText) → String
  | .error _ => ""
  | .ok pages => extractPages pages

/-- The page loop of `extract_text_from_pdf` in `pdf_to_csv.py`: the debug
log at line 28 subscripts `page_text` (taking its first 100 characters)
*before* the truthiness test, inside an eagerly evaluated f-string, so a
page whose extraction returned `None` raises `TypeError`; the exception
escapes the loop to the per-file handler and the whole file yields the
empty string, discarding the text accumulated from earlier pages.  A page
with a (possibly empty) string slices fine and then contributes exactly
`pageContrib`. -/
def extractPagesV1 : List PageText → String → String
  | [], acc => acc
  | none :: _, _ => ""
  | some t :: rest, acc => extractPagesV1 rest (acc ++ (if t = "" then "" else t ++ "\n"))

/-- Model of `extract_text_from_pdf(pdf_path)` from `pdf_to_csv.py`: any
exception — a failure to open the PDF, or the `TypeError` raised by the
unguarded debug log on a `None` page — is caught and yields the empty
string for the whole file. -/
def extract_text_from_pdf_v1 : Except Unit (List PageText) → String
  | .error _ => ""
  | .ok pages => extractPagesV1 pages ""

/-- Spec-side contribution: pages that yield text give their text followed
by a newline, pages yielding no text are dropped. -/
def pageKeep : PageText → Option String
  | none => none
  | some t => if t = "" then none else some (t ++ "\n")

/-- Concatenation of a list of strings, in order (the spec-side reading:
one document string equal to the concatenation, in page order). -/
def concatStrings : List String → String
  | [] => ""
  | a :: l => a ++ concatStrings l

/-- The extraction loop of `pdfs_to_csv` in `pdf_to_csv.py`: one
`(filename, content)` record per input file, per-file failures yielding
empty text while the batch continues over the remaining files. -/
def pdfs_to_csv_v1 (files : List (String × Except Unit (List PageText))) :
    List (String × String) :=
  files.map (fun f => (f.1, extract_text_from_pdf_v1 f.2))

/-- The extraction loop of `pdfs_to_csv` in `pdf_to_csv_recursive.py`:
same batch shape, with the guarded per-page extractor. -/
def pdfs_to_csv_recursive (files : List (String × Except Unit (List PageText))) :
    List (String × String) :=
  files.map (fun f => (f.1, extract_text_from_pdf_recursive f.2))

/-! ### Search ranking (`search_csv.py`)

`cosine_similarity(query_vec, tfidf_matrix).flatten()` is an external
numeric library call; its result — one similarity score per matrix row —
is taken as the input `scores` (rationals standing in for the floats).
`np.argsort` (ascending) is determinized as the stable ascending argsort:
ties ordered by row index.  `search_query` then reverses it and keeps the
first 5, exactly as `similarity_scores.argsort()[::-1][:5]`. -/

/-- Score of row `i` (out-of-range reads 0, never reached on range
indices). -/
def scoreAt (scores : List ℚ) (i : Nat) : ℚ :=
  scores.getD i 0

/-- Stable ascending comparison on row indices: by score, ties by row
index. -/
def simLe (scores : List ℚ) (i j : Nat) : Bool :=
  decide (scoreAt scores i < scoreAt scores j) ||
    (decide (scoreAt scores i = scoreAt scores j) && decide (i ≤ j))

/-- Ordered insertion of an index into a sorted index list. -/
def insIdx (le : Nat → Nat → Bool) (i : Nat) : List Nat → List Nat
  | [] => [i]
  | j :: t => if le i j then i :: j :: t else j :: insIdx le i t

/-- Insertion sort of an index list. -/
def isortIdx (le : Nat → Nat → Bool) : List Nat → List Nat
  | [] => []
  | i :: t => insIdx le i (isortIdx le t)

/-- Model of `similarity_scores.argsort()`: the stable ascending argsort of
the score vector. -/
def argsortAsc (scores : List ℚ) : List Nat :=
  isortIdx (simLe scores) (List.range scores.length)

/-- Model of `top_indices = similarity_scores.argsort()[::-1][:5]`: the
row indices returned by `search_query`, in result order. -/
def search_query (scores : List ℚ) : List Nat :=
  ((argsortAsc scores).reverse).take 5

/-! ### Concrete example data for witnesses and counterexamples -/

/-- An example direct-PDF URL. -/
def exPdfUrl : String := "http://x/a.pdf"

/-- An example HTML page URL. -/
def exPageUrl : String := "http://x/p"

/-- An example digest function standing in for `hashlib.md5(...)
.hexdigest()` (any function works for the witnesses; content-identical
downloads trivially agree on it). -/
def exMd5 : Content → String :=
  fun c => "00000000" ++ Nat.repr (c.foldl (fun a b => a + b) 0)

/-- A fresh post-`main` state: the four CSVs initialized with their
headers, nothing downloaded, nothing visited. -/
def exFresh : St :=
  { downloadedCsv := some [downloadedHeader],
    visitedCsv := some [visitedHeader],
    uniqueCsv := some [uniqueHeader],
    duplicateCsv := some [duplicateHeader],
    files := [],
    visitedUrls := [],
    uniqueHashes := [] }

/-- `exFresh` with the PDF URL already recorded as visited. -/
def exVisitedSt : St :=
  { exFresh with
      visitedCsv := some [visitedHeader, [exPdfUrl, "t"]],
      visitedUrls := [exPdfUrl] }

/-- World for the C1 counterexample: the page links to the (already
visited) PDF URL; fetching the PDF URL raises. -/
def exW1 : World :=
  { fetch := fun u =>
      if u = exPageUrl then some ⟨200, "text/html", []⟩ else none,
    links := fun u => if u = exPageUrl then [exPdfUrl] else [],
    seleniumLinks := fun _ => none }

/-- World for the C5 counterexample: the page returns HTTP 403 and the
selenium render fails. -/
def exW403 : World :=
  { fetch := fun u =>
      if u = exPageUrl then some ⟨403, "text/html", []⟩ else none,
    links := fun _ => [],
    seleniumLinks := fun _ => none }

/-- World serving one concrete PDF at `exPdfUrl`. -/
def exWpdf : World :=
  { fetch := fun u =>
      if u = exPdfUrl then some ⟨200, "application/pdf", [1, 2, 3]⟩ else none,
    links := fun _ => [],
    seleniumLinks := fun _ => none }

/-- World whose response for `exPdfUrl` is an HTML error page (non-PDF
Content-Type). -/
def exWhtml : World :=
  { fetch := fun u =>
      if u = exPdfUrl then some ⟨200, "text/html; charset=utf-8", [9]⟩ else none,
    links := fun _ => [],
    seleniumLinks := fun _ => none }

/-- Empty starting disk (no CSV files, no stored PDFs). -/
def exDisk0 : Disk :=
  { downloadedCsv := none, visitedCsv := none, uniqueCsv := none,
    duplicateCsv := none, files := [] }

/-! ### Injectivity of `Nat.repr`

Needed to show the numeric-suffix loop of `download_pdf` terminates with a
fresh filename: the candidate names `base_1.ext, base_2.ext, …` are pairwise
distinct because decimal representations of distinct naturals differ. -/

/-- Clean decimal representation of a natural number, least significant
digit last. -/
def decRep (n : Nat) : List Char :=
  if _ : n < 10 then [Nat.digitChar n]
  else decRep (n / 10) ++ [Nat.digitChar (n % 10)]
decreasing_by exact Nat.div_lt_self (by omega) (by omega)

/-- Decimal value of a digit-character list, generalised over an
accumulator. -/
def decVal (a : Nat) (cs : List Char) : Nat :=
  cs.foldl (fun acc c => 10 * acc + (c.toNat - 48)) a

theorem decRep_of_lt {n : Nat} (h : n < 10) : decRep n = [Nat.digitChar n] := by
  rw [decRep]
  simp [h]

theorem decRep_of_ge {n : Nat} (h : ¬ n < 10) :
    decRep n = decRep (n / 10) ++ [Nat.digitChar (n % 10)] := by
  rw [decRep]
  simp [h]

theorem digitChar_toNat {d : Nat} (h : d < 10) : (Nat.digitChar d).toNat = 48 + d := by
  interval_cases d <;> decide

theorem decVal_append (a : Nat) (l₁ l₂ : List Char) :
    decVal a (l₁ ++ l₂) = decVal (decVal a l₁) l₂ := by
  simp [decVal, List.foldl_append]

theorem decVal_decRep (n : Nat) : ∀ a : Nat,
    decVal a (decRep n) = a * 10 ^ (decRep n).length + n := by
  induction n using Nat.strong_induction_on with
  | _ n ih =>
    intro a
    by_cases h : n < 10
    · rw [decRep_of_lt h]
      simp [decVal, digitChar_toNat h]
      omega
    · rw [decRep_of_ge h, decVal_append]
      have hdiv : n / 10 < n := Nat.div_lt_self (by omega) (by omega)
      rw [ih (n / 10) hdiv a]
      have hm : n % 10 < 10 := Nat.mod_lt _ (by omega)
      simp [decVal, digitChar_toNat hm, List.length_append, pow_succ]
      have := Nat.div_add_mod n 10
      ring_nf
      omega

theorem decRep_injective : Function.Injective decRep := by
  intro m n h
  have hm := decVal_decRep m 0
  have hn := decVal_decRep n 0
  rw [h] at hm
  omega

theorem toDigitsCore_eq_decRep :
    ∀ (fuel n : Nat) (ds : List Char), n < fuel →
      Nat.toDigitsCore 10 fuel n ds = decRep n ++ ds := by
  intro fuel
  induction fuel with
  | zero => intro n ds h; omega
  | succ f ih =>
    intro n ds h
    by_cases hz : n / 10 = 0
    · have hlt : n < 10 := by omega
      simp [Nat.toDigitsCore, hz, decRep_of_lt hlt, Nat.mod_eq_of_lt hlt]
    · have hge : ¬ n < 10 := by
        intro hc
        exact hz (Nat.div_eq_of_lt hc)
      have hdivlt : n / 10 < f := by
        have hlt : n / 10 < n := Nat.div_lt_self (by omega) (by omega)
        omega
      simp only [Nat.toDigitsCore, hz, if_false]
      rw [ih (n / 10) _ hdivlt, decRep_of_ge hge, List.append_assoc]
      rfl

theorem repr_data (n : Nat) : (Nat.repr n).data = decRep n := by
  show (List.asString (Nat.toDigitsCore 10 (n + 1) n [])).data = decRep n
  rw [toDigitsCore_eq_decRep (n + 1) n [] (Nat.lt_succ_self n)]
  simp [List.asString]

theorem nat_repr_injective : Function.Injective Nat.repr := by
  intro m n h
  apply decRep_injective
  rw [← repr_data, ← repr_data, h]

/-! ### The numeric-suffix collision loop -/

theorem suffixName_injective (base ext : String) :
    Function.Injective (suffixName base ext) := by
  intro m n h
  have hd := congrArg String.data h
  simp only [suffixName, String.data_append] at hd
  have h1 := List.append_cancel_right hd
  have h2 := List.append_cancel_left h1
  rw [repr_data, repr_data] at h2
  exact decRep_injective h2

theorem nodup_subset_length {α : Type} [DecidableEq α] {l l' : List α}
    (hn : l.Nodup) (hs : ∀ x ∈ l, x ∈ l') : l.length ≤ l'.length := by
  calc l.length = l.toFinset.card := (List.toFinset_card_of_nodup hn).symm
    _ ≤ l'.toFinset.card := by
        apply Finset.card_le_card
        intro x hx
        rw [List.mem_toFinset] at hx ⊢
        exact hs x hx
    _ ≤ l'.length := List.toFinset_card_le l'

theorem exists_free_suffix (existing : List String) (base ext : String) (c : Nat) :
    ∃ i, i < existing.length + 1 ∧ suffixName base ext (c + i) ∉ existing := by
  by_contra hcon
  push_neg at hcon
  have hn : ((List.range (existing.length + 1)).map
      (fun i => suffixName base ext (c + i))).Nodup := by
    refine List.Nodup.map ?_ (List.nodup_range _)
    intro a b hab
    have := suffixName_injective base ext hab
    omega
  have hs : ∀ x ∈ (List.range (existing.length + 1)).map
      (fun i => suffixName base ext (c + i)), x ∈ existing := by
    intro x hx
    rw [List.mem_map] at hx
    obtain ⟨i, hi, rfl⟩ := hx
    exact hcon i (List.mem_range.mp hi)
  have hlen := nodup_subset_length hn hs
  simp only [List.length_map, List.length_range] at hlen
  omega

theorem pickNameLoop_spec (existing : List String) (base ext : String) :
    ∀ (fuel c : Nat), (∃ i, i < fuel ∧ suffixName base ext (c + i) ∉ existing) →
    ∃ i, i < fuel ∧
      pickNameLoop existing base ext fuel c = suffixName base ext (c + i) ∧
      suffixName base ext (c + i) ∉ existing ∧
      ∀ j, j < i → suffixName base ext (c + j) ∈ existing := by
  intro fuel
  induction fuel with
  | zero =>
    intro c h
    obtain ⟨i, hi, _⟩ := h
    omega
  | succ f ih =>
    intro c hex
    by_cases hc : suffixName base ext c ∈ existing
    · obtain ⟨i, hi, hfree⟩ := hex
      have hi0 : i ≠ 0 := by
        rintro rfl
        exact hfree hc
      have hshift : c + 1 + (i - 1) = c + i := by omega
      obtain ⟨i', hi', hres, hfree', hall⟩ :=
        ih (c + 1) ⟨i - 1, by omega, by rw [hshift]; exact hfree⟩
      have hstep : c + 1 + i' = c + (i' + 1) := by omega
      refine ⟨i' + 1, by omega, ?_, ?_, ?_⟩
      · rw [pickNameLoop, if_pos hc, hres, hstep]
      · rw [← hstep]; exact hfree'
      · intro j hj
        match j with
        | 0 => simpa using hc
        | Nat.succ j' =>
          have : c + (j' + 1) = c + 1 + j' := by omega
          rw [this]
          exact hall j' (by omega)
    · refine ⟨0, by omega, ?_, by simpa using hc, by omega⟩
      rw [pickNameLoop, if_neg hc]
      norm_num

theorem pickName_not_mem (existing : List String) (orig : String) :
    pickName existing orig ∉ existing := by
  unfold pickName
  split
  · obtain ⟨i, hi, hres, hfree, _⟩ :=
      pickNameLoop_spec existing (splitext orig).1 (splitext orig).2
        (existing.length + 1) 1
        (exists_free_suffix existing (splitext orig).1 (splitext orig).2 1)
    rw [hres]
    exact hfree
  · assumption

theorem pickName_of_not_mem {existing : List String} {orig : String}
    (h : orig ∉ existing) : pickName existing orig = orig := by
  unfold pickName
  exact if_neg h

theorem pickName_mem_spec {existing : List String} {orig : String}
    (h : orig ∈ existing) :
    ∃ n, 1 ≤ n ∧
      pickName existing orig = suffixName (splitext orig).1 (splitext orig).2 n ∧
      suffixName (splitext orig).1 (splitext orig).2 n ∉ existing ∧
      ∀ m, 1 ≤ m → m < n → suffixName (splitext orig).1 (splitext orig).2 m ∈ existing := by
  obtain ⟨i, hi, hres, hfree, hall⟩ :=
    pickNameLoop_spec existing (splitext orig).1 (splitext orig).2
      (existing.length + 1) 1
      (exists_free_suffix existing (splitext orig).1 (splitext orig).2 1)
  refine ⟨1 + i, by omega, ?_, ?_, ?_⟩
  · rw [pickName, if_pos h, hres]
  · exact hfree
  · intro m hm1 hmn
    have : m = 1 + (m - 1) := by omega
    rw [this]
    exact hall (m - 1) (by omega)

/-! ### Branch behaviour of `download_pdf` -/

theorem download_pdf_none {w : World} {md5 : Content → String} {u : String}
    (s : St) (h : w.fetch u = none) :
    download_pdf w md5 u s = (s, [Ev.get u]) := by
  simp [download_pdf, h]

theorem download_pdf_rfs {w : World} {md5 : Content → String} {u : String} {r : Response}
    (s : St) (h : w.fetch u = some r) (h2 : rfs r.status) :
    download_pdf w md5 u s = (s, [Ev.get u]) := by
  simp [download_pdf, h, h2]

theorem download_pdf_notPdf {w : World} {md5 : Content → String} {u : String} {r : Response}
    (s : St) (h : w.fetch u = some r) (h2 : ¬ rfs r.status)
    (h3 : ctIsPdf r.contentType = false) :
    download_pdf w md5 u s = (s, [Ev.get u]) := by
  simp [download_pdf, h, h2, h3]

theorem download_pdf_dup {w : World} {md5 : Content → String} {u : String} {r : Response}
    (s : St) (h : w.fetch u = some r) (h2 : ¬ rfs r.status)
    (h3 : ctIsPdf r.contentType = true) (h4 : md5 r.body ∈ s.uniqueHashes) :
    download_pdf w md5 u s =
      ({ s with duplicateCsv :=
          add_to_csv s.duplicateCsv [u, filenameFromUrl u, md5 r.body] },
       [Ev.get u, Ev.writeTemp (filenameFromUrl u)]) := by
  simp [download_pdf, h, h2, h3, h4]

theorem download_pdf_new {w : World} {md5 : Content → String} {u : String} {r : Response}
    (s : St) (h : w.fetch u = some r) (h2 : ¬ rfs r.status)
    (h3 : ctIsPdf r.contentType = true) (h4 : md5 r.body ∉ s.uniqueHashes) :
    download_pdf w md5 u s =
      ({ s with
          files := s.files ++
            [⟨strTake8 (md5 r.body),
              pickName (namesIn s.files (strTake8 (md5 r.body))) (filenameFromUrl u),
              r.body⟩],
          uniqueCsv := add_to_csv s.uniqueCsv
            [u, BASE_DOWNLOAD_DIR ++ "/" ++ strTake8 (md5 r.body) ++ "/" ++
              pickName (namesIn s.files (strTake8 (md5 r.body))) (filenameFromUrl u),
             md5 r.body],
          downloadedCsv := add_to_csv s.downloadedCsv
            [u, BASE_DOWNLOAD_DIR ++ "/" ++ strTake8 (md5 r.body) ++ "/" ++
              pickName (namesIn s.files (strTake8 (md5 r.body))) (filenameFromUrl u)],
          uniqueHashes := s.uniqueHashes ++ [md5 r.body] },
       [Ev.get u, Ev.writeTemp (filenameFromUrl u)]) := by
  simp [download_pdf, h, h2, h3, h4]

/-! ### Frame lemmas (which fields each operation can touch) -/

theorem download_pdf_frame (w : World) (md5 : Content → String) (u : String) (s : St) :
    (download_pdf w md5 u s).1.visitedUrls = s.visitedUrls ∧
    (download_pdf w md5 u s).1.visitedCsv = s.visitedCsv := by
  cases hf : w.fetch u with
  | none => simp [download_pdf_none s hf]
  | some r =>
    by_cases h2 : rfs r.status
    · simp [download_pdf_rfs s hf h2]
    · by_cases h3 : ctIsPdf r.contentType
      · by_cases h4 : md5 r.body ∈ s.uniqueHashes
        · simp [download_pdf_dup s hf h2 h3 h4]
        · simp [download_pdf_new s hf h2 h3 h4]
      · have h3' : ctIsPdf r.contentType = false := by simpa using h3
        simp [download_pdf_notPdf s hf h2 h3']

theorem processLinks_frame (w : World) (md5 : Content → String) :
    ∀ (ls : List String) (s : St),
      (processLinks w md5 ls s).1.visitedUrls = s.visitedUrls ∧
      (processLinks w md5 ls s).1.visitedCsv = s.visitedCsv := by
  intro ls
  induction ls with
  | nil => intro s; simp [processLinks]
  | cons l t ih =>
    intro s
    by_cases hp : is_pdf_url l
    · have hd := download_pdf_frame w md5 l s
      have ht := ih (download_pdf w md5 l s).1
      simp only [processLinks, hp, if_true]
      exact ⟨ht.1.trans hd.1, ht.2.trans hd.2⟩
    · simp only [processLinks, hp, if_false]
      exact ih s

theorem visited_skip {w : World} {md5 : Content → String} {t u : String} {s : St}
    (h : u ∈ s.visitedUrls) :
    download_pdfs_from_url w md5 t u s = (s, []) := by
  simp [download_pdfs_from_url, h]

/-! ### Branch behaviour of `download_pdfs_from_url` -/

theorem dpfu_pdf {w : World} {md5 : Content → String} {t u : String} {s : St}
    (h : u ∉ s.visitedUrls) (hp : is_pdf_url u = true) :
    download_pdfs_from_url w md5 t u s =
      ((download_pdf w md5 u (markVisited s u t)).1,
       Ev.visit u :: (download_pdf w md5 u (markVisited s u t)).2) := by
  simp [download_pdfs_from_url, h, hp]

theorem dpfu_page_none {w : World} {md5 : Content → String} {t u : String} {s : St}
    (h : u ∉ s.visitedUrls) (hp : is_pdf_url u = false) (hf : w.fetch u = none) :
    download_pdfs_from_url w md5 t u s = (markVisited s u t, [Ev.visit u, Ev.get u]) := by
  simp [download_pdfs_from_url, h, hp, hf]

theorem dpfu_403_selFail {w : World} {md5 : Content → String} {t u : String} {s : St}
    {r : Response} (h : u ∉ s.visitedUrls) (hp : is_pdf_url u = false)
    (hf : w.fetch u = some r) (h403 : r.status = 403)
    (hsel : w.seleniumLinks u = none) :
    download_pdfs_from_url w md5 t u s =
      (markVisited s u t, [Ev.visit u, Ev.get u, Ev.selenium u]) := by
  simp [download_pdfs_from_url, h, hp, hf, h403, hsel]

theorem dpfu_403_sel {w : World} {md5 : Content → String} {t u : String} {s : St}
    {r : Response} {links : List String} (h : u ∉ s.visitedUrls)
    (hp : is_pdf_url u = false) (hf : w.fetch u = some r) (h403 : r.status = 403)
    (hsel : w.seleniumLinks u = some links) :
    download_pdfs_from_url w md5 t u s =
      ((processLinks w md5 links (markVisited s u t)).1,
       Ev.visit u :: Ev.get u :: Ev.selenium u ::
         (processLinks w md5 links (markVisited s u t)).2) := by
  simp [download_pdfs_from_url, h, hp, hf, h403, hsel]

theorem dpfu_httpErr {w : World} {md5 : Content → String} {t u : String} {s : St}
    {r : Response} (h : u ∉ s.visitedUrls) (hp : is_pdf_url u = false)
    (hf : w.fetch u = some r) (h403 : ¬ r.status = 403) (herr : rfs r.status) :
    download_pdfs_from_url w md5 t u s = (markVisited s u t, [Ev.visit u, Ev.get u]) := by
  simp [download_pdfs_from_url, h, hp, hf, h403, herr]

theorem dpfu_page_ok {w : World} {md5 : Content → String} {t u : String} {s : St}
    {r : Response} (h : u ∉ s.visitedUrls) (hp : is_pdf_url u = false)
    (hf : w.fetch u = some r) (h403 : ¬ r.status = 403) (herr : ¬ rfs r.status) :
    download_pdfs_from_url w md5 t u s =
      ((processLinks w md5 (w.links u) (markVisited s u t)).1,
       Ev.visit u :: Ev.get u ::
         (processLinks w md5 (w.links u) (markVisited s u t)).2) := by
  simp [download_pdfs_from_url, h, hp, hf, h403, herr]

/-- On a fresh URL the fetch-failure outcome is the same on both the direct
PDF path and the page path: only the visited state changes. -/
theorem dpfu_fetch_none {w : World} {md5 : Content → String} {t u : String} {s : St}
    (h : u ∉ s.visitedUrls) (hf : w.fetch u = none) :
    download_pdfs_from_url w md5 t u s = (markVisited s u t, [Ev.visit u, Ev.get u]) := by
  by_cases hp : is_pdf_url u
  · rw [dpfu_pdf h hp, download_pdf_none (markVisited s u t) hf]
  · exact dpfu_page_none h (by simpa using hp) hf

/-- Processing a fresh URL marks it visited (in memory and in the CSV) and
emits `Ev.visit u` first, whatever the fetch outcome. -/
theorem dpfu_marks {w : World} {md5 : Content → String} {t u : String} {s : St}
    (h : u ∉ s.visitedUrls) :
    u ∈ (download_pdfs_from_url w md5 t u s).1.visitedUrls ∧
    (download_pdfs_from_url w md5 t u s).1.visitedCsv =
      some (s.visitedCsv.getD [] ++ [[u, t]]) ∧
    ∃ tl, (download_pdfs_from_url w md5 t u s).2 = Ev.visit u :: tl := by
  have hmem : u ∈ (markVisited s u t).visitedUrls := by
    simp [markVisited]
  have hcsv : (markVisited s u t).visitedCsv = some (s.visitedCsv.getD [] ++ [[u, t]]) := by
    simp [markVisited, add_to_csv]
  by_cases hp : is_pdf_url u
  · rw [dpfu_pdf h hp]
    have hfr := download_pdf_frame w md5 u (markVisited s u t)
    exact ⟨hfr.1 ▸ hmem, hfr.2 ▸ hcsv, _, Eq.refl _⟩
  · have hp' : is_pdf_url u = false := by simpa using hp
    cases hf : w.fetch u with
    | none =>
      rw [dpfu_page_none h hp' hf]
      exact ⟨hmem, hcsv, _, Eq.refl _⟩
    | some r =>
      by_cases h403 : r.status = 403
      · cases hsel : w.seleniumLinks u with
        | none =>
          rw [dpfu_403_selFail h hp' hf h403 hsel]
          exact ⟨hmem, hcsv, _, Eq.refl _⟩
        | some links =>
          rw [dpfu_403_sel h hp' hf h403 hsel]
          have hfr := processLinks_frame w md5 links (markVisited s u t)
          exact ⟨hfr.1 ▸ hmem, hfr.2 ▸ hcsv, _, Eq.refl _⟩
      · by_cases herr : rfs r.status
        · rw [dpfu_httpErr h hp' hf h403 herr]
          exact ⟨hmem, hcsv, _, Eq.refl _⟩
        · rw [dpfu_page_ok h hp' hf h403 herr]
          have hfr := processLinks_frame w md5 (w.links u) (markVisited s u t)
          exact ⟨hfr.1 ▸ hmem, hfr.2 ▸ hcsv, _, Eq.refl _⟩

/-! ### Monotonicity: all state components only grow -/

theorem mono_refl (s : St) : Mono s s :=
  ⟨List.prefix_rfl, List.prefix_rfl, List.prefix_rfl, List.prefix_rfl,
   List.prefix_rfl, List.prefix_rfl, List.prefix_rfl⟩

theorem mono_trans {s1 s2 s3 : St} (a : Mono s1 s2) (b : Mono s2 s3) : Mono s1 s3 :=
  ⟨a.dl.trans b.dl, a.vis.trans b.vis, a.uniq.trans b.uniq, a.dup.trans b.dup,
   a.files.trans b.files, a.visited.trans b.visited, a.hashes.trans b.hashes⟩

theorem mono_markVisited (s : St) (u t : String) : Mono s (markVisited s u t) := by
  refine ⟨List.prefix_rfl, ?_, List.prefix_rfl, List.prefix_rfl,
    List.prefix_rfl, List.prefix_append _ _, List.prefix_rfl⟩
  simp [markVisited, add_to_csv]

theorem mono_download_pdf (w : World) (md5 : Content → String) (u : String) (s : St) :
    Mono s (download_pdf w md5 u s).1 := by
  cases hf : w.fetch u with
  | none => rw [download_pdf_none s hf]; exact mono_refl s
  | some r =>
    by_cases h2 : rfs r.status
    · rw [download_pdf_rfs s hf h2]; exact mono_refl s
    · by_cases h3 : ctIsPdf r.contentType
      · by_cases h4 : md5 r.body ∈ s.uniqueHashes
        · rw [download_pdf_dup s hf h2 h3 h4]
          exact ⟨List.prefix_rfl, List.prefix_rfl, List.prefix_rfl,
            by simp [add_to_csv], List.prefix_rfl, List.prefix_rfl, List.prefix_rfl⟩
        · rw [download_pdf_new s hf h2 h3 h4]
          exact ⟨by simp [add_to_csv], List.prefix_rfl, by simp [add_to_csv],
            List.prefix_rfl, List.prefix_append _ _, List.prefix_rfl,
            List.prefix_append _ _⟩
      · have h3' : ctIsPdf r.contentType = false := by simpa using h3
        rw [download_pdf_notPdf s hf h2 h3']
        exact mono_refl s

theorem mono_processLinks (w : World) (md5 : Content → String) :
    ∀ (ls : List String) (s : St), Mono s (processLinks w md5 ls s).1 := by
  intro ls
  induction ls with
  | nil => intro s; rw [processLinks]; exact mono_refl s
  | cons l tl ih =>
    intro s
    by_cases hp : is_pdf_url l
    · simp only [processLinks, hp, if_true]
      exact mono_trans (mono_download_pdf w md5 l s) (ih _)
    · simp only [processLinks, hp, if_false]
      exact ih s

theorem mono_dpfu (w : World) (md5 : Content → String) (t u : String) (s : St) :
    Mono s (download_pdfs_from_url w md5 t u s).1 := by
  by_cases h : u ∈ s.visitedUrls
  · rw [visited_skip h]; exact mono_refl s
  · by_cases hp : is_pdf_url u
    · rw [dpfu_pdf h hp]
      exact mono_trans (mono_markVisited s u t) (mono_download_pdf w md5 u _)
    · have hp' : is_pdf_url u = false := by simpa using hp
      cases hf : w.fetch u with
      | none => rw [dpfu_page_none h hp' hf]; exact mono_markVisited s u t
      | some r =>
        by_cases h403 : r.status = 403
        · cases hsel : w.seleniumLinks u with
          | none => rw [dpfu_403_selFail h hp' hf h403 hsel]; exact mono_markVisited s u t
          | some links =>
            rw [dpfu_403_sel h hp' hf h403 hsel]
            exact mono_trans (mono_markVisited s u t) (mono_processLinks w md5 links _)
        · by_cases herr : rfs r.status
          · rw [dpfu_httpErr h hp' hf h403 herr]; exact mono_markVisited s u t
          · rw [dpfu_page_ok h hp' hf h403 herr]
            exact mono_trans (mono_markVisited s u t) (mono_processLinks w md5 (w.links u) _)

theorem mono_runSeeds (w : World) (md5 : Content → String) (clock : Nat → String) :
    ∀ (us : List String) (i : Nat) (s : St), Mono s (runSeeds w md5 clock us i s).1 := by
  intro us
  induction us with
  | nil => intro i s; rw [runSeeds]; exact mono_refl s
  | cons u tl ih =>
    intro i s
    simp only [runSeeds]
    exact mono_trans (mono_dpfu w md5 (clock i) u s) (ih _ _)

/-! ### The visited-URL invariant and idempotence machinery -/

theorem dpfu_visited_state {w : World} {md5 : Content → String} {t u : String} {s : St}
    (h : u ∉ s.visitedUrls) :
    (download_pdfs_from_url w md5 t u s).1.visitedUrls = s.visitedUrls ++ [u] ∧
    (download_pdfs_from_url w md5 t u s).1.visitedCsv =
      some (s.visitedCsv.getD [] ++ [[u, t]]) := by
  have hvu : (markVisited s u t).visitedUrls = s.visitedUrls ++ [u] := rfl
  have hvc : (markVisited s u t).visitedCsv = some (s.visitedCsv.getD [] ++ [[u, t]]) := rfl
  by_cases hp : is_pdf_url u
  · rw [dpfu_pdf h hp]
    have hfr := download_pdf_frame w md5 u (markVisited s u t)
    exact ⟨hfr.1.trans hvu, hfr.2.trans hvc⟩
  · have hp' : is_pdf_url u = false := by simpa using hp
    cases hf : w.fetch u with
    | none => rw [dpfu_page_none h hp' hf]; exact ⟨hvu, hvc⟩
    | some r =>
      by_cases h403 : r.status = 403
      · cases hsel : w.seleniumLinks u with
        | none => rw [dpfu_403_selFail h hp' hf h403 hsel]; exact ⟨hvu, hvc⟩
        | some links =>
          rw [dpfu_403_sel h hp' hf h403 hsel]
          have hfr := processLinks_frame w md5 links (markVisited s u t)
          exact ⟨hfr.1.trans hvu, hfr.2.trans hvc⟩
      · by_cases herr : rfs r.status
        · rw [dpfu_httpErr h hp' hf h403 herr]; exact ⟨hvu, hvc⟩
        · rw [dpfu_page_ok h hp' hf h403 herr]
          have hfr := processLinks_frame w md5 (w.links u) (markVisited s u t)
          exact ⟨hfr.1.trans hvu, hfr.2.trans hvc⟩

theorem drop_one_append {α : Type} {l : List α} (l' : List α) (h : l ≠ []) :
    (l ++ l').drop 1 = l.drop 1 ++ l' := by
  cases l with
  | nil => exact absurd rfl h
  | cons a t => simp

theorem vinv_dpfu {w : World} {md5 : Content → String} {t u : String} {s : St}
    (h : VInv s) : VInv (download_pdfs_from_url w md5 t u s).1 := by
  by_cases hv : u ∈ s.visitedUrls
  · rw [visited_skip hv]; exact h
  · obtain ⟨⟨rows, hrows, hne⟩, hcol⟩ := h
    obtain ⟨hvu, hvc⟩ := @dpfu_visited_state w md5 t u s hv
    have hgetD : s.visitedCsv.getD [] = rows := by rw [hrows]; rfl
    constructor
    · exact ⟨rows ++ [[u, t]], by rw [hvc, hgetD], by simp⟩
    · intro v hvmem
      have hnewcol : visitedColumn (download_pdfs_from_url w md5 t u s).1 =
          visitedColumn s ++ [u] := by
        unfold visitedColumn
        rw [hvc, hgetD]
        simp only [Option.getD_some]
        rw [drop_one_append _ hne, List.filterMap_append]
        rfl
      rw [hnewcol]
      rw [hvu] at hvmem
      rcases List.mem_append.mp hvmem with hold | hnew
      · exact List.mem_append.mpr (Or.inl (hcol v hold))
      · exact List.mem_append.mpr (Or.inr hnew)

theorem vinv_runSeeds (w : World) (md5 : Content → String) (clock : Nat → String) :
    ∀ (us : List String) (i : Nat) (s : St), VInv s → VInv (runSeeds w md5 clock us i s).1 := by
  intro us
  induction us with
  | nil => intro i s h; rw [runSeeds]; exact h
  | cons u tl ih =>
    intro i s h
    simp only [runSeeds]
    exact ih _ _ (vinv_dpfu h)

theorem runSeeds_visits (w : World) (md5 : Content → String) (clock : Nat → String) :
    ∀ (us : List String) (i : Nat) (s : St) (u : String), u ∈ us →
      u ∈ (runSeeds w md5 clock us i s).1.visitedUrls := by
  intro us
  induction us with
  | nil => intro i s u hu; exact absurd hu (List.not_mem_nil u)
  | cons v tl ih =>
    intro i s u hu
    simp only [runSeeds]
    rcases List.mem_cons.mp hu with rfl | htl
    · have hmem : u ∈ (download_pdfs_from_url w md5 (clock i) u s).1.visitedUrls := by
        by_cases hv : u ∈ s.visitedUrls
        · rw [visited_skip hv]; exact hv
        · rw [(dpfu_visited_state hv).1]; simp
      exact (mono_runSeeds w md5 clock tl (i + 1) _).visited.subset hmem
    · exact ih _ _ _ htl

theorem runSeeds_skip (w : World) (md5 : Content → String) (clock : Nat → String) :
    ∀ (us : List String) (i : Nat) (s : St), (∀ u ∈ us, u ∈ s.visitedUrls) →
      runSeeds w md5 clock us i s = (s, []) := by
  intro us
  induction us with
  | nil => intro i s _; rw [runSeeds]
  | cons u tl ih =>
    intro i s h
    have h1 : u ∈ s.visitedUrls := h u (List.mem_cons_self u tl)
    simp only [runSeeds, visited_skip h1]
    rw [ih (i + 1) s (fun v hv => h v (List.mem_cons_of_mem u hv))]
    rfl

theorem csvSome_download_pdf (w : World) (md5 : Content → String) (u : String) (s : St)
    (h : csvSome s) : csvSome (download_pdf w md5 u s).1 := by
  cases hf : w.fetch u with
  | none => rw [download_pdf_none s hf]; exact h
  | some r =>
    by_cases h2 : rfs r.status
    · rw [download_pdf_rfs s hf h2]; exact h
    · by_cases h3 : ctIsPdf r.contentType
      · by_cases h4 : md5 r.body ∈ s.uniqueHashes
        · rw [download_pdf_dup s hf h2 h3 h4]
          exact ⟨h.1, h.2.1, h.2.2.1, by simp [add_to_csv]⟩
        · rw [download_pdf_new s hf h2 h3 h4]
          exact ⟨by simp [add_to_csv], h.2.1, by simp [add_to_csv], h.2.2.2⟩
      · have h3' : ctIsPdf r.contentType = false := by simpa using h3
        rw [download_pdf_notPdf s hf h2 h3']; exact h

theorem csvSome_processLinks (w : World) (md5 : Content → String) :
    ∀ (ls : List String) (s : St), csvSome s → csvSome (processLinks w md5 ls s).1 := by
  intro ls
  induction ls with
  | nil => intro s h; rw [processLinks]; exact h
  | cons l tl ih =>
    intro s h
    by_cases hp : is_pdf_url l
    · simp only [processLinks, hp, if_true]
      exact ih _ (csvSome_download_pdf w md5 l s h)
    · simp only [processLinks, hp, if_false]
      exact ih s h

theorem csvSome_markVisited (s : St) (u t : String) (h : csvSome s) :
    csvSome (markVisited s u t) :=
  ⟨h.1, by simp [markVisited, add_to_csv], h.2.2.1, h.2.2.2⟩

theorem csvSome_dpfu (w : World) (md5 : Content → String) (t u : String) (s : St)
    (h : csvSome s) : csvSome (download_pdfs_from_url w md5 t u s).1 := by
  by_cases hv : u ∈ s.visitedUrls
  · rw [visited_skip hv]; exact h
  · by_cases hp : is_pdf_url u
    · rw [dpfu_pdf hv hp]
      exact csvSome_download_pdf w md5 u _ (csvSome_markVisited s u t h)
    · have hp' : is_pdf_url u = false := by simpa using hp
      cases hf : w.fetch u with
      | none => rw [dpfu_page_none hv hp' hf]; exact csvSome_markVisited s u t h
      | some r =>
        by_cases h403 : r.status = 403
        · cases hsel : w.seleniumLinks u with
          | none =>
            rw [dpfu_403_selFail hv hp' hf h403 hsel]
            exact csvSome_markVisited s u t h
          | some links =>
            rw [dpfu_403_sel hv hp' hf h403 hsel]
            exact csvSome_processLinks w md5 links _ (csvSome_markVisited s u t h)
        · by_cases herr : rfs r.status
          · rw [dpfu_httpErr hv hp' hf h403 herr]
            exact csvSome_markVisited s u t h
          · rw [dpfu_page_ok hv hp' hf h403 herr]
            exact csvSome_processLinks w md5 (w.links u) _ (csvSome_markVisited s u t h)

theorem csvSome_runSeeds (w : World) (md5 : Content → String) (clock : Nat → String) :
    ∀ (us : List String) (i : Nat) (s : St), csvSome s →
      csvSome (runSeeds w md5 clock us i s).1 := by
  intro us
  induction us with
  | nil => intro i s h; rw [runSeeds]; exact h
  | cons u tl ih =>
    intro i s h
    simp only [runSeeds]
    exact ih _ _ (csvSome_dpfu w md5 (clock i) u s h)

theorem initialize_isSome (f : CsvFile) (h : Row) : (initialize_csv f h).isSome := by
  cases f <;> rfl

theorem initialize_getD (f : CsvFile) (h : Row) :
    f.getD [] <+: (initialize_csv f h).getD [] := by
  cases f with
  | none => exact List.nil_prefix
  | some rows => exact List.prefix_rfl

theorem isEmpty_false_of_ne {α : Type} {l : List α} (h : l ≠ []) : l.isEmpty = false := by
  cases l with
  | nil => exact absurd rfl h
  | cons a t => rfl

theorem load_csv_some_ne {rows : List Row} (hne : rows ≠ []) (col : Nat) :
    load_csv_to_set (some rows) col = (rows.drop 1).filterMap (fun r => r.get? col) := by
  show (if rows.isEmpty = true then []
    else (rows.drop 1).filterMap (fun r => r.get? col)) = _
  rw [isEmpty_false_of_ne hne]
  rfl

theorem csvSome_mainInit (d : Disk) : csvSome (mainInit d) :=
  ⟨initialize_isSome _ _, initialize_isSome _ _, initialize_isSome _ _, initialize_isSome _ _⟩

theorem vinv_mainInit (d : Disk) (hldr : ∀ rows, d.visitedCsv = some rows → rows ≠ []) :
    VInv (mainInit d) := by
  cases hv : d.visitedCsv with
  | none =>
    refine ⟨⟨[visitedHeader], by simp [mainInit, hv, initialize_csv], by simp⟩, ?_⟩
    intro v hvmem
    simp [mainInit, hv, initialize_csv, load_csv_to_set] at hvmem
  | some rows =>
    have hne := hldr rows hv
    refine ⟨⟨rows, by simp [mainInit, hv, initialize_csv], hne⟩, ?_⟩
    intro v hvmem
    have hvu : (mainInit d).visitedUrls =
        (rows.drop 1).filterMap (fun r => r.get? 0) := by
      show load_csv_to_set (initialize_csv d.visitedCsv visitedHeader) 0 = _
      rw [hv]
      exact load_csv_some_ne hne 0
    have hvc : visitedColumn (mainInit d) =
        (rows.drop 1).filterMap (fun r => r.get? 0) := by
      unfold visitedColumn
      simp [mainInit, hv, initialize_csv]
    rw [hvc]
    rw [hvu] at hvmem
    exact hvmem

/-! ### Claim C1 -/

/-- C1 (corrected): a URL already in the visited set is never re-fetched
*when it is the URL being processed by the crawl driver* — the guard at the
top of `download_pdfs_from_url` returns immediately, with no network event
and no state change.  The original claim ("on any path") is refuted by
`C1_counterexample`: a visited URL rediscovered as a PDF link on a scraped
page is passed straight to `download_pdf`, which issues a fresh
`session.get` without consulting the visited set. -/
theorem C1_visited_guard (w : World) (md5 : Content → String) (t u : String) (s : St)
    (h : u ∈ s.visitedUrls) :
    download_pdfs_from_url w md5 t u s = (s, []) :=
  visited_skip h

/-- Witness for C1: a concrete visited URL processed as a seed is skipped. -/
theorem C1_visited_guard_witness :
    exPdfUrl ∈ exVisitedSt.visitedUrls ∧
    download_pdfs_from_url exW1 exMd5 "t0" exPdfUrl exVisitedSt = (exVisitedSt, []) :=
  ⟨by decide, C1_visited_guard exW1 exMd5 "t0" exPdfUrl exVisitedSt (by decide)⟩

/-- Counterexample to C1 as stated: `exPdfUrl` is already in the visited
store, yet crawling the page `exPageUrl` (which links to it) issues a
network fetch (`Ev.get`) for it — the PDF-link path never checks the
visited set. -/
theorem C1_counterexample :
    exPdfUrl ∈ exVisitedSt.visitedUrls ∧
    Ev.get exPdfUrl ∈ (download_pdfs_from_url exW1 exMd5 "t0" exPageUrl exVisitedSt).2 := by
  decide

/-! ### Claim C5 -/

/-- C5 (corrected): on an HTTP 403 for a page URL, the fetcher falls back
*directly* to the headless-browser render: the event trace is
`visit, get, selenium, …` with no intermediate anti-bot-bypass client tier
(no such client exists in this script).  The tier-2 step of the original claim
is refuted by `C5_counterexample`. -/
theorem C5_403_selenium_direct (w : World) (md5 : Content → String) (t u : String)
    (s : St) (r : Response) (h : u ∉ s.visitedUrls) (hp : is_pdf_url u = false)
    (hf : w.fetch u = some r) (h403 : r.status = 403) :
    ∃ s' tl, download_pdfs_from_url w md5 t u s =
      (s', Ev.visit u :: Ev.get u :: Ev.selenium u :: tl) := by
  cases hsel : w.seleniumLinks u with
  | none => exact ⟨_, [], dpfu_403_selFail h hp hf h403 hsel⟩
  | some links => exact ⟨_, _, dpfu_403_sel h hp hf h403 hsel⟩

/-- Witness for C5: the concrete 403 world hits the selenium fallback. -/
theorem C5_403_selenium_direct_witness :
    exPageUrl ∉ exFresh.visitedUrls ∧ is_pdf_url exPageUrl = false ∧
    exW403.fetch exPageUrl = some ⟨403, "text/html", []⟩ ∧
    ∃ s' tl, download_pdfs_from_url exW403 exMd5 "t0" exPageUrl exFresh =
      (s', Ev.visit exPageUrl :: Ev.get exPageUrl :: Ev.selenium exPageUrl :: tl) :=
  ⟨by decide, by decide, by decide,
   C5_403_selenium_direct exW403 exMd5 "t0" exPageUrl exFresh ⟨403, "text/html", []⟩
     (by decide) (by decide) (by decide) rfl⟩

/-- Counterexample to C5 as stated: after the 403 `get`, the very next
event is the headless-browser render — there is no anti-bot-bypass tier
between them, so the headless browser *is* the immediate response to
a 403. -/
theorem C5_counterexample :
    (exW403.fetch exPageUrl).map Response.status = some 403 ∧
    (download_pdfs_from_url exW403 exMd5 "t0" exPageUrl exFresh).2 =
      [Ev.visit exPageUrl, Ev.get exPageUrl, Ev.selenium exPageUrl] := by
  decide

/-! ### Claim C6 -/

/-- C6 (confirmed): when the declared Content-Type of the response does not
contain `application/pdf`, `download_pdf` returns after the warning with
the state untouched — no file (the temporary write happens only after this
check, and no `Ev.writeTemp` event occurs), no row in any CSV. -/
theorem C6_content_type_gate (w : World) (md5 : Content → String) (u : String)
    (s : St) (r : Response) (hf : w.fetch u = some r) (h2 : ¬ rfs r.status)
    (h3 : ctIsPdf r.contentType = false) :
    download_pdf w md5 u s = (s, [Ev.get u]) :=
  download_pdf_notPdf s hf h2 h3

/-- Witness for C6: a concrete URL answered with `text/html` is fetched
but nothing is stored or recorded. -/
theorem C6_content_type_gate_witness :
    exWhtml.fetch exPdfUrl = some ⟨200, "text/html; charset=utf-8", [9]⟩ ∧
    ¬ rfs 200 ∧ ctIsPdf "text/html; charset=utf-8" = false ∧
    download_pdf exWhtml exMd5 exPdfUrl exFresh = (exFresh, [Ev.get exPdfUrl]) :=
  ⟨by decide, by decide, by decide,
   C6_content_type_gate exWhtml exMd5 exPdfUrl exFresh ⟨200, "text/html; charset=utf-8", [9]⟩
     (by decide) (by decide) (by decide)⟩

/-! ### Claim C9 -/

/-- C9 (confirmed): a fresh URL is added to the in-memory visited set and
appended to `visited_urls.csv` before any fetch is attempted — the trace
starts with `Ev.visit u`, the visited state is updated whatever the fetch
outcome, a failed fetch leaves exactly the visited-state change
(`markVisited`), and processing the URL again afterwards is a no-op, so a
URL whose fetch failed is never retried. -/
theorem C9_visited_recorded_before_fetch (w : World) (md5 : Content → String)
    (t u : String) (s : St) (h : u ∉ s.visitedUrls) :
    u ∈ (download_pdfs_from_url w md5 t u s).1.visitedUrls ∧
    (download_pdfs_from_url w md5 t u s).1.visitedCsv =
      some (s.visitedCsv.getD [] ++ [[u, t]]) ∧
    (∃ tl, (download_pdfs_from_url w md5 t u s).2 = Ev.visit u :: tl) ∧
    (w.fetch u = none →
      download_pdfs_from_url w md5 t u s = (markVisited s u t, [Ev.visit u, Ev.get u])) ∧
    (∀ t', download_pdfs_from_url w md5 t' u (download_pdfs_from_url w md5 t u s).1 =
      ((download_pdfs_from_url w md5 t u s).1, [])) := by
  obtain ⟨h1, h2, h3⟩ := dpfu_marks h
  exact ⟨h1, h2, h3, fun hf => dpfu_fetch_none h hf, fun t' => visited_skip h1⟩

/-- Witness for C9: a concrete fresh PDF URL whose fetch raises is still
recorded as visited and never retried. -/
theorem C9_visited_recorded_before_fetch_witness :
    exPdfUrl ∉ exFresh.visitedUrls ∧
    (exPdfUrl ∈ (download_pdfs_from_url exW1 exMd5 "t0" exPdfUrl exFresh).1.visitedUrls ∧
     (download_pdfs_from_url exW1 exMd5 "t0" exPdfUrl exFresh).1.visitedCsv =
       some (exFresh.visitedCsv.getD [] ++ [[exPdfUrl, "t0"]]) ∧
     (∃ tl, (download_pdfs_from_url exW1 exMd5 "t0" exPdfUrl exFresh).2 =
       Ev.visit exPdfUrl :: tl) ∧
     (exW1.fetch exPdfUrl = none →
       download_pdfs_from_url exW1 exMd5 "t0" exPdfUrl exFresh =
         (markVisited exFresh exPdfUrl "t0", [Ev.visit exPdfUrl, Ev.get exPdfUrl])) ∧
     (∀ t', download_pdfs_from_url exW1 exMd5 t' exPdfUrl
         (download_pdfs_from_url exW1 exMd5 "t0" exPdfUrl exFresh).1 =
       ((download_pdfs_from_url exW1 exMd5 "t0" exPdfUrl exFresh).1, []))) :=
  ⟨by decide, C9_visited_recorded_before_fetch exW1 exMd5 "t0" exPdfUrl exFresh (by decide)⟩

/-! ### Claim C3 -/

/-- C3 (confirmed): running the crawl-and-download stage a second time over
the same seed list and the same server responses changes nothing: the
visited set reloaded from `visited_urls.csv` contains every seed of the
first run, so the second run performs no network event at all (`[]`) and
leaves the disk — stored files and unique/duplicate classification
included — exactly as the first run left it.  The hypothesis only excludes
a pre-existing *empty* `visited_urls.csv` (whose first appended row would
later be swallowed as a header); a missing or header-initialised file is
the normal case. -/
theorem C3_second_run_noop (w : World) (md5 : Content → String)
    (clock1 clock2 : Nat → String) (seeds : List String) (d0 : Disk)
    (hldr : ∀ rows, d0.visitedCsv = some rows → rows ≠ []) :
    runMain w md5 clock2 seeds (runMain w md5 clock1 seeds d0).1 =
      ((runMain w md5 clock1 seeds d0).1, []) := by
  have hvinv0 : VInv (mainInit d0) := vinv_mainInit d0 hldr
  have hcs0 : csvSome (mainInit d0) := csvSome_mainInit d0
  have hvinv1 : VInv (runSeeds w md5 clock1 seeds 0 (mainInit d0)).1 :=
    vinv_runSeeds w md5 clock1 seeds 0 _ hvinv0
  have hcs1 : csvSome (runSeeds w md5 clock1 seeds 0 (mainInit d0)).1 :=
    csvSome_runSeeds w md5 clock1 seeds 0 _ hcs0
  have hseeds1 : ∀ u ∈ seeds, u ∈ (runSeeds w md5 clock1 seeds 0 (mainInit d0)).1.visitedUrls :=
    fun u hu => runSeeds_visits w md5 clock1 seeds 0 _ u hu
  obtain ⟨⟨rows, hrows, hne⟩, hcol⟩ := hvinv1
  obtain ⟨da, hda⟩ := Option.isSome_iff_exists.mp hcs1.1
  obtain ⟨dc, hdc⟩ := Option.isSome_iff_exists.mp hcs1.2.2.1
  obtain ⟨dd, hdd⟩ := Option.isSome_iff_exists.mp hcs1.2.2.2
  have hd1 : (runMain w md5 clock1 seeds d0).1 =
      (runSeeds w md5 clock1 seeds 0 (mainInit d0)).1.toDisk := rfl
  have hvisited2 : (mainInit (runSeeds w md5 clock1 seeds 0 (mainInit d0)).1.toDisk).visitedUrls =
      visitedColumn (runSeeds w md5 clock1 seeds 0 (mainInit d0)).1 := by
    show load_csv_to_set
      (initialize_csv (runSeeds w md5 clock1 seeds 0 (mainInit d0)).1.visitedCsv visitedHeader) 0 = _
    rw [hrows]
    show load_csv_to_set (some rows) 0 = _
    rw [load_csv_some_ne hne]
    unfold visitedColumn
    rw [hrows]
    rfl
  have hskip : runSeeds w md5 clock2 seeds 0
      (mainInit (runSeeds w md5 clock1 seeds 0 (mainInit d0)).1.toDisk) =
      (mainInit (runSeeds w md5 clock1 seeds 0 (mainInit d0)).1.toDisk, []) := by
    apply runSeeds_skip
    intro u hu
    rw [hvisited2]
    exact hcol u (hseeds1 u hu)
  have hdisk : (mainInit (runSeeds w md5 clock1 seeds 0 (mainInit d0)).1.toDisk).toDisk =
      (runSeeds w md5 clock1 seeds 0 (mainInit d0)).1.toDisk := by
    show Disk.mk
      (initialize_csv (runSeeds w md5 clock1 seeds 0 (mainInit d0)).1.downloadedCsv downloadedHeader)
      (initialize_csv (runSeeds w md5 clock1 seeds 0 (mainInit d0)).1.visitedCsv visitedHeader)
      (initialize_csv (runSeeds w md5 clock1 seeds 0 (mainInit d0)).1.uniqueCsv uniqueHeader)
      (initialize_csv (runSeeds w md5 clock1 seeds 0 (mainInit d0)).1.duplicateCsv duplicateHeader)
      (runSeeds w md5 clock1 seeds 0 (mainInit d0)).1.files = _
    rw [hda, hrows, hdc, hdd]
    show Disk.mk (some da) (some rows) (some dc) (some dd)
      (runSeeds w md5 clock1 seeds 0 (mainInit d0)).1.files = _
    rw [← hda, ← hrows, ← hdc, ← hdd]
  rw [hd1]
  show ((runSeeds w md5 clock2 seeds 0
      (mainInit (runSeeds w md5 clock1 seeds 0 (mainInit d0)).1.toDisk)).1.toDisk,
    (runSeeds w md5 clock2 seeds 0
      (mainInit (runSeeds w md5 clock1 seeds 0 (mainInit d0)).1.toDisk)).2) = _
  rw [hskip]
  rw [hdisk]

/-- Witness for C3: a concrete two-run execution over one PDF seed from an
empty disk — the second run returns the disk of the first run unchanged with an
empty event trace. -/
theorem C3_second_run_noop_witness :
    (∀ rows, exDisk0.visitedCsv = some rows → rows ≠ []) ∧
    runMain exWpdf exMd5 (fun _ => "t1") [exPdfUrl]
        (runMain exWpdf exMd5 (fun _ => "t0") [exPdfUrl] exDisk0).1 =
      ((runMain exWpdf exMd5 (fun _ => "t0") [exPdfUrl] exDisk0).1, []) :=
  ⟨by simp [exDisk0], C3_second_run_noop exWpdf exMd5 (fun _ => "t0") (fun _ => "t1")
    [exPdfUrl] exDisk0 (by simp [exDisk0])⟩

/-! ### Claim C8 -/

/-- C8 (confirmed): the CSV logs are append-only with the header first:
`initialize_csv` writes the header row only when the file does not exist
and leaves an existing file untouched, `add_to_csv` only appends one row
at the end, and consequently a whole (re-)run of the program leaves every
previously recorded row of all four logs in place, in order, unaltered —
the old contents are a prefix of the new. -/
theorem C8_csv_append_only :
    (∀ h : Row, initialize_csv none h = some [h]) ∧
    (∀ (rows : List Row) (h : Row), initialize_csv (some rows) h = some rows) ∧
    (∀ (f : CsvFile) (row : Row), add_to_csv f row = some (f.getD [] ++ [row])) ∧
    (∀ (w : World) (md5 : Content → String) (clock : Nat → String)
        (seeds : List String) (d : Disk),
      d.downloadedCsv.getD [] <+: ((runMain w md5 clock seeds d).1).downloadedCsv.getD [] ∧
      d.visitedCsv.getD [] <+: ((runMain w md5 clock seeds d).1).visitedCsv.getD [] ∧
      d.uniqueCsv.getD [] <+: ((runMain w md5 clock seeds d).1).uniqueCsv.getD [] ∧
      d.duplicateCsv.getD [] <+: ((runMain w md5 clock seeds d).1).duplicateCsv.getD []) := by
  refine ⟨fun h => rfl, fun rows h => rfl, fun f row => rfl, ?_⟩
  intro w md5 clock seeds d
  have hm := mono_runSeeds w md5 clock seeds 0 (mainInit d)
  exact ⟨(initialize_getD d.downloadedCsv downloadedHeader).trans hm.dl,
         (initialize_getD d.visitedCsv visitedHeader).trans hm.vis,
         (initialize_getD d.uniqueCsv uniqueHeader).trans hm.uniq,
         (initialize_getD d.duplicateCsv duplicateHeader).trans hm.dup⟩

/-! ### Claim C10 -/

/-- C10 (confirmed): the numeric-suffix loop of `download_pdf` keeps the
original name when free and otherwise selects the first `base_N.ext`
(N = 1, 2, …) not present in the hash-prefix subdirectory; it terminates
because the directory holds finitely many entries (pigeonhole over the
pairwise-distinct candidate names), the chosen name is never one that
already exists, and consequently the final rename of a new unique PDF only
appends a fresh file — it never replaces a stored one, even when hash
prefix and original filename both collide. -/
theorem C10_numeric_suffix_fresh (existing : List String) (orig : String) :
    (pickName existing orig ∉ existing) ∧
    (orig ∉ existing → pickName existing orig = orig) ∧
    (orig ∈ existing → ∃ n, 1 ≤ n ∧
      pickName existing orig = suffixName (splitext orig).1 (splitext orig).2 n ∧
      suffixName (splitext orig).1 (splitext orig).2 n ∉ existing ∧
      ∀ m, 1 ≤ m → m < n → suffixName (splitext orig).1 (splitext orig).2 m ∈ existing) ∧
    (∀ (w : World) (md5 : Content → String) (u : String) (s : St) (r : Response),
      w.fetch u = some r → ¬ rfs r.status → ctIsPdf r.contentType = true →
      md5 r.body ∉ s.uniqueHashes →
      ∃ nm, nm ∉ namesIn s.files (strTake8 (md5 r.body)) ∧
        (download_pdf w md5 u s).1.files =
          s.files ++ [⟨strTake8 (md5 r.body), nm, r.body⟩]) := by
  refine ⟨pickName_not_mem existing orig, fun h => pickName_of_not_mem h,
    fun h => pickName_mem_spec h, ?_⟩
  intro w md5 u s r hf h2 h3 h4
  refine ⟨pickName (namesIn s.files (strTake8 (md5 r.body))) (filenameFromUrl u),
    pickName_not_mem _ _, ?_⟩
  rw [download_pdf_new s hf h2 h3 h4]

/-- Witness for C10: with `a.pdf` and `a_1.pdf` already stored, the loop
picks `a_2.pdf`. -/
theorem C10_numeric_suffix_fresh_witness :
    ("a.pdf" ∈ ["a.pdf", "a_1.pdf"]) ∧
    pickName ["a.pdf", "a_1.pdf"] "a.pdf" ∉ ["a.pdf", "a_1.pdf"] ∧
    (∃ n, 1 ≤ n ∧
      pickName ["a.pdf", "a_1.pdf"] "a.pdf" =
        suffixName (splitext "a.pdf").1 (splitext "a.pdf").2 n ∧
      suffixName (splitext "a.pdf").1 (splitext "a.pdf").2 n ∉ ["a.pdf", "a_1.pdf"] ∧
      ∀ m, 1 ≤ m → m < n →
        suffixName (splitext "a.pdf").1 (splitext "a.pdf").2 m ∈ ["a.pdf", "a_1.pdf"]) :=
  ⟨by decide, (C10_numeric_suffix_fresh ["a.pdf", "a_1.pdf"] "a.pdf").1,
   (C10_numeric_suffix_fresh ["a.pdf", "a_1.pdf"] "a.pdf").2.2.1 (by decide)⟩

/-! ### Claim C2: dedup invariants -/

theorem hashCol_add {f : CsvFile} {rows : List Row} (hf : f = some rows)
    (hne : rows ≠ []) (row : Row) {h : String} (hget : row.get? 2 = some h) :
    (((add_to_csv f row).getD []).drop 1).filterMap (fun r => r.get? 2) =
      (((f.getD []).drop 1).filterMap (fun r => r.get? 2)) ++ [h] := by
  subst hf
  show ((rows ++ [row]).drop 1).filterMap (fun r => r.get? 2) = _
  rw [drop_one_append _ hne, List.filterMap_append]
  simp only [List.filterMap_cons, List.filterMap_nil, hget, Option.getD_some]

theorem uinv_append {s s' : St} {row : Row} {hsh : String}
    (hq : s'.uniqueCsv = add_to_csv s.uniqueCsv row)
    (hh : s'.uniqueHashes = s.uniqueHashes ++ [hsh])
    (hget : row.get? 2 = some hsh)
    (hnotin : hsh ∉ s.uniqueHashes)
    (hu : UInv s) : UInv s' := by
  obtain ⟨⟨rows, hrows, hne⟩, hsub, hnd⟩ := hu
  have hcol : hashColumn s' = hashColumn s ++ [hsh] := by
    unfold hashColumn
    rw [hq]
    exact hashCol_add hrows hne row hget
  refine ⟨⟨rows ++ [row], ?_, by simp⟩, ?_, ?_⟩
  · rw [hq, add_to_csv, hrows]
    rfl
  · intro x hx
    rw [hcol] at hx
    rw [hh]
    rcases List.mem_append.mp hx with hold | hnew
    · exact List.mem_append.mpr (Or.inl (hsub x hold))
    · exact List.mem_append.mpr (Or.inr hnew)
  · rw [hcol, List.nodup_append]
    have hnotcol : hsh ∉ hashColumn s := fun hc => hnotin (hsub _ hc)
    refine ⟨hnd, List.nodup_singleton _, ?_⟩
    intro a ha hb
    rcases List.mem_singleton.mp hb with rfl
    exact hnotcol ha

theorem uinv_download_pdf (w : World) (md5 : Content → String) (u : String) (s : St)
    (h : UInv s) :
    UInv (download_pdf w md5 u s).1 ∧ s.files <+: (download_pdf w md5 u s).1.files := by
  cases hf : w.fetch u with
  | none => rw [download_pdf_none s hf]; exact ⟨h, List.prefix_rfl⟩
  | some r =>
    by_cases h2 : rfs r.status
    · rw [download_pdf_rfs s hf h2]; exact ⟨h, List.prefix_rfl⟩
    · by_cases h3 : ctIsPdf r.contentType
      · by_cases h4 : md5 r.body ∈ s.uniqueHashes
        · rw [download_pdf_dup s hf h2 h3 h4]
          exact ⟨h, List.prefix_rfl⟩
        · rw [download_pdf_new s hf h2 h3 h4]
          exact ⟨uinv_append rfl rfl rfl h4 h, List.prefix_append _ _⟩
      · have h3' : ctIsPdf r.contentType = false := by simpa using h3
        rw [download_pdf_notPdf s hf h2 h3']
        exact ⟨h, List.prefix_rfl⟩

theorem uinv_downloadAll (w : World) (md5 : Content → String) :
    ∀ (us : List String) (s : St), UInv s →
      UInv (downloadAll w md5 us s).1 ∧ s.files <+: (downloadAll w md5 us s).1.files := by
  intro us
  induction us with
  | nil => intro s h; rw [downloadAll]; exact ⟨h, List.prefix_rfl⟩
  | cons u tl ih =>
    intro s h
    simp only [downloadAll]
    obtain ⟨h1, hp1⟩ := uinv_download_pdf w md5 u s h
    obtain ⟨h2, hp2⟩ := ih _ h1
    exact ⟨h2, hp1.trans hp2⟩

/-- C2 (confirmed): content-identical downloads are deduplicated by hash:
for any sequence of `download_pdf` calls starting from a state satisfying
the invariant `main` establishes, the stored files are only ever appended
to (the first stored copy is never overwritten or removed) and the `Hash`
column of `unique_pdfs.csv` stays duplicate-free — one unique record per
content, ever; a download whose content hash is already known appends
exactly one row to `duplicate_pdfs.csv` and discards the bytes (no file,
no unique row), while a download with an unknown hash stores exactly one
new file under a fresh name and appends exactly one unique record. -/
theorem C2_dedup (w : World) (md5 : Content → String) :
    (∀ (us : List String) (s0 : St), UInv s0 →
      s0.files <+: (downloadAll w md5 us s0).1.files ∧
      (hashColumn (downloadAll w md5 us s0).1).Nodup) ∧
    (∀ (u : String) (s : St) (r : Response),
      w.fetch u = some r → ¬ rfs r.status → ctIsPdf r.contentType = true →
      md5 r.body ∈ s.uniqueHashes →
      download_pdf w md5 u s =
        ({ s with duplicateCsv :=
            add_to_csv s.duplicateCsv [u, filenameFromUrl u, md5 r.body] },
         [Ev.get u, Ev.writeTemp (filenameFromUrl u)])) ∧
    (∀ (u : String) (s : St) (r : Response),
      w.fetch u = some r → ¬ rfs r.status → ctIsPdf r.contentType = true →
      md5 r.body ∉ s.uniqueHashes →
      ∃ nm, nm ∉ namesIn s.files (strTake8 (md5 r.body)) ∧
        download_pdf w md5 u s =
          ({ s with
              files := s.files ++ [⟨strTake8 (md5 r.body), nm, r.body⟩],
              uniqueCsv :=
                add_to_csv s.uniqueCsv
                  [u, BASE_DOWNLOAD_DIR ++ "/" ++ strTake8 (md5 r.body) ++ "/" ++ nm,
                   md5 r.body],
              downloadedCsv :=
                add_to_csv s.downloadedCsv
                  [u, BASE_DOWNLOAD_DIR ++ "/" ++ strTake8 (md5 r.body) ++ "/" ++ nm],
              uniqueHashes := s.uniqueHashes ++ [md5 r.body] },
           [Ev.get u, Ev.writeTemp (filenameFromUrl u)])) := by
  refine ⟨?_, ?_, ?_⟩
  · intro us s0 h
    obtain ⟨⟨_, _, hnd⟩, hp⟩ := uinv_downloadAll w md5 us s0 h
    exact ⟨hp, hnd⟩
  · intro u s r hf h2 h3 h4
    exact download_pdf_dup s hf h2 h3 h4
  · intro u s r hf h2 h3 h4
    exact ⟨pickName (namesIn s.files (strTake8 (md5 r.body))) (filenameFromUrl u),
      pickName_not_mem _ _, download_pdf_new s hf h2 h3 h4⟩

/-- Witness for C2: downloading the same concrete PDF twice from a fresh
state keeps the file list growing only once and the hash column
duplicate-free. -/
theorem C2_dedup_witness :
    UInv exFresh ∧
    exFresh.files <+: (downloadAll exWpdf exMd5 [exPdfUrl, exPdfUrl] exFresh).1.files ∧
    (hashColumn (downloadAll exWpdf exMd5 [exPdfUrl, exPdfUrl] exFresh).1).Nodup :=
  ⟨⟨⟨[uniqueHeader], rfl, by decide⟩, by decide, by decide⟩,
   (C2_dedup exWpdf exMd5).1 [exPdfUrl, exPdfUrl] exFresh
     ⟨⟨[uniqueHeader], rfl, by decide⟩, by decide, by decide⟩⟩

/-! ### Claim C7: text extraction -/

theorem foldl_concat (pages : List PageText) : ∀ acc : String,
    pages.foldl (fun a p => a ++ pageContrib p) acc =
      acc ++ concatStrings (pages.map pageContrib) := by
  induction pages with
  | nil => intro acc; rw [List.foldl_nil, List.map_nil, concatStrings, String.append_empty]
  | cons p t ih =>
    intro acc
    rw [List.foldl_cons, ih, List.map_cons, concatStrings, String.append_assoc]

theorem concat_contrib_eq (pages : List PageText) :
    concatStrings (pages.map pageContrib) = concatStrings (pages.filterMap pageKeep) := by
  induction pages with
  | nil => rfl
  | cons p t ih =>
    cases p with
    | none =>
      show "" ++ concatStrings (t.map pageContrib) = concatStrings (t.filterMap pageKeep)
      rw [String.empty_append, ih]
    | some tx =>
      by_cases h : tx = ""
      · subst h
        show "" ++ concatStrings (t.map pageContrib) = concatStrings (t.filterMap pageKeep)
        rw [String.empty_append, ih]
      · have hc : pageContrib (some tx) = tx ++ "\n" := if_neg h
        have hk : pageKeep (some tx) = some (tx ++ "\n") := if_neg h
        show pageContrib (some tx) ++ concatStrings (t.map pageContrib) =
          concatStrings (List.filterMap pageKeep (some tx :: t))
        rw [List.filterMap_cons, hc, hk]
        show (tx ++ "\n") ++ concatStrings (t.map pageContrib) =
          (tx ++ "\n") ++ concatStrings (t.filterMap pageKeep)
        rw [ih]

theorem extractPagesV1_no_none : ∀ (pages : List PageText) (acc : String),
    none ∉ pages →
    extractPagesV1 pages acc = acc ++ concatStrings (pages.map pageContrib) := by
  intro pages
  induction pages with
  | nil =>
    intro acc _
    show acc = acc ++ concatStrings []
    rw [concatStrings, String.append_empty]
  | cons p t ih =>
    intro acc h
    cases p with
    | none => exact absurd (List.mem_cons_self _ _) h
    | some tx =>
      have hnt : none ∉ t := fun hm => h (List.mem_cons_of_mem _ hm)
      show extractPagesV1 t (acc ++ (if tx = "" then "" else tx ++ "\n")) = _
      rw [ih _ hnt]
      show (acc ++ pageContrib (some tx)) ++ concatStrings (t.map pageContrib) =
        acc ++ (pageContrib (some tx) ++ concatStrings (t.map pageContrib))
      rw [String.append_assoc]

theorem extractPagesV1_has_none : ∀ (pages : List PageText) (acc : String),
    none ∈ pages → extractPagesV1 pages acc = "" := by
  intro pages
  induction pages with
  | nil =>
    intro acc h
    exact absurd h (List.not_mem_nil _)
  | cons p t ih =>
    intro acc h
    cases p with
    | none => rfl
    | some tx =>
      rcases List.mem_cons.mp h with heq | hmem
      · exact absurd heq (by simp)
      · exact ih _ hmem

theorem batch_get {ext : Except Unit (List PageText) → String}
    (files : List (String × Except Unit (List PageText))) (i : Nat) :
    (files.map (fun f => (f.1, ext f.2))).get? i =
      (files.get? i).map (fun f => (f.1, ext f.2)) := by
  rw [List.get?_eq_getElem?, List.get?_eq_getElem?, List.getElem?_map]

/-- C7 (corrected): in `pdf_to_csv_recursive.py` the document string is
the claimed concatenation, in page order, of each text-yielding page
followed by a newline, pages yielding no text contributing nothing.  In
`pdf_to_csv.py` that holds only for files none of whose pages extract to
`None`: a `None` page raises `TypeError` inside the pre-guard debug log
and the per-file handler turns the *whole file* into the empty string,
discarding every other page (see `C7_counterexample`).  In both scripts a
per-file extraction failure yields an empty-text record and the batch
continues, one record per file. -/
theorem C7_extract_per_version :
    (∀ pages : List PageText,
      extract_text_from_pdf_recursive (Except.ok pages) =
        concatStrings (pages.filterMap pageKeep)) ∧
    (extract_text_from_pdf_recursive (Except.error ()) = "") ∧
    (∀ pages : List PageText, none ∉ pages →
      extract_text_from_pdf_v1 (Except.ok pages) =
        concatStrings (pages.filterMap pageKeep)) ∧
    (∀ pages : List PageText, none ∈ pages →
      extract_text_from_pdf_v1 (Except.ok pages) = "") ∧
    (extract_text_from_pdf_v1 (Except.error ()) = "") ∧
    (∀ files : List (String × Except Unit (List PageText)),
      (pdfs_to_csv_v1 files).length = files.length ∧
      (pdfs_to_csv_recursive files).length = files.length) ∧
    (∀ (files : List (String × Except Unit (List PageText))) (i : Nat),
      (pdfs_to_csv_v1 files).get? i =
        (files.get? i).map (fun f => (f.1, extract_text_from_pdf_v1 f.2)) ∧
      (pdfs_to_csv_recursive files).get? i =
        (files.get? i).map (fun f => (f.1, extract_text_from_pdf_recursive f.2))) ∧
    (∀ (files : List (String × Except Unit (List PageText))) (nm : String) (i : Nat),
      files.get? i = some (nm, Except.error ()) →
      (pdfs_to_csv_v1 files).get? i = some (nm, "") ∧
      (pdfs_to_csv_recursive files).get? i = some (nm, "")) := by
  refine ⟨?_, rfl, ?_, ?_, rfl, ?_, ?_, ?_⟩
  · intro pages
    show extractPages pages = _
    rw [extractPages, foldl_concat, String.empty_append, concat_contrib_eq]
  · intro pages h
    show extractPagesV1 pages "" = _
    rw [extractPagesV1_no_none pages "" h, String.empty_append, concat_contrib_eq]
  · intro pages h
    exact extractPagesV1_has_none pages "" h
  · intro files
    exact ⟨List.length_map files _, List.length_map files _⟩
  · intro files i
    exact ⟨batch_get files i, batch_get files i⟩
  · intro files nm i hi
    constructor
    · rw [show (pdfs_to_csv_v1 files).get? i =
          (files.get? i).map (fun f => (f.1, extract_text_from_pdf_v1 f.2)) from
          batch_get files i, hi]
      rfl
    · rw [show (pdfs_to_csv_recursive files).get? i =
          (files.get? i).map (fun f => (f.1, extract_text_from_pdf_recursive f.2)) from
          batch_get files i, hi]
      rfl

/-- Witness for C7: page lists with and without a `None` page, for both
script versions, and a corrupt file in a concrete batch. -/
theorem C7_extract_per_version_witness :
    (extract_text_from_pdf_recursive (Except.ok [some "hi", none, some "", some "yo"]) =
      concatStrings ([some "hi", none, some "", some "yo"].filterMap pageKeep)) ∧
    (none ∉ ([some "hi", some "", some "yo"] : List PageText)) ∧
    (extract_text_from_pdf_v1 (Except.ok [some "hi", some "", some "yo"]) =
      concatStrings ([some "hi", some "", some "yo"].filterMap pageKeep)) ∧
    (none ∈ ([some "hi", none, some "yo"] : List PageText)) ∧
    (extract_text_from_pdf_v1 (Except.ok [some "hi", none, some "yo"]) = "") ∧
    ([("a.pdf", Except.ok [some "hi"]), ("b.pdf", (Except.error () : Except Unit (List PageText)))].get? 1 =
      some ("b.pdf", Except.error ())) ∧
    ((pdfs_to_csv_v1 [("a.pdf", Except.ok [some "hi"]), ("b.pdf", Except.error ())]).get? 1 =
      some ("b.pdf", "")) :=
  ⟨C7_extract_per_version.1 [some "hi", none, some "", some "yo"],
   by decide,
   C7_extract_per_version.2.2.1 [some "hi", some "", some "yo"] (by decide),
   by decide,
   C7_extract_per_version.2.2.2.1 [some "hi", none, some "yo"] (by decide),
   rfl,
   (C7_extract_per_version.2.2.2.2.2.2.2
     [("a.pdf", Except.ok [some "hi"]), ("b.pdf", Except.error ())] "b.pdf" 1 rfl).1⟩

/-- Counterexample to C7 as stated: in `pdf_to_csv.py`, the file with
pages `hi`, `None`, `yo` yields the empty string — not the claimed
concatenation `hi` newline `yo` newline — because the `None` page raises
inside the unguarded debug log and the per-file handler discards the
whole file. -/
theorem C7_counterexample :
    extract_text_from_pdf_v1 (Except.ok [some "hi", none, some "yo"]) = "" ∧
    concatStrings ([some "hi", none, some "yo"].filterMap pageKeep) = "hi\nyo\n" ∧
    extract_text_from_pdf_v1 (Except.ok [some "hi", none, some "yo"]) ≠
      concatStrings ([some "hi", none, some "yo"].filterMap pageKeep) := by
  decide

/-! ### Claim C4: search ranking -/

theorem simLe_total (scores : List ℚ) (i j : Nat) :
    simLe scores i j = true ∨ simLe scores j i = true := by
  unfold simLe
  rcases lt_trichotomy (scoreAt scores i) (scoreAt scores j) with h | h | h
  · left; simp [h]
  · rcases Nat.le_total i j with hij | hij
    · left; simp [h, hij]
    · right; simp [h.symm, hij]
  · right; simp [h]

theorem simLe_trans (scores : List ℚ) (i j k : Nat) (h1 : simLe scores i j = true)
    (h2 : simLe scores j k = true) : simLe scores i k = true := by
  unfold simLe at h1 h2 ⊢
  simp only [Bool.or_eq_true, Bool.and_eq_true, decide_eq_true_eq] at h1 h2 ⊢
  rcases h1 with hlt1 | ⟨heq1, hle1⟩
  · rcases h2 with hlt2 | ⟨heq2, hle2⟩
    · exact Or.inl (lt_trans hlt1 hlt2)
    · exact Or.inl (heq2 ▸ hlt1)
  · rcases h2 with hlt2 | ⟨heq2, hle2⟩
    · exact Or.inl (heq1 ▸ hlt2)
    · exact Or.inr ⟨heq1.trans heq2, le_trans hle1 hle2⟩

theorem insIdx_perm (le : Nat → Nat → Bool) (i : Nat) :
    ∀ l : List Nat, (insIdx le i l).Perm (i :: l) := by
  intro l
  induction l with
  | nil => exact List.Perm.refl _
  | cons j t ih =>
    unfold insIdx
    by_cases h : le i j
    · rw [if_pos h]
    · rw [if_neg h]
      exact (List.Perm.cons j ih).trans (List.Perm.swap i j t)

theorem insIdx_sorted (le : Nat → Nat → Bool)
    (htot : ∀ a b, le a b = true ∨ le b a = true)
    (htr : ∀ a b c, le a b = true → le b c = true → le a c = true) (i : Nat) :
    ∀ l : List Nat, List.Pairwise (fun a b => le a b = true) l →
      List.Pairwise (fun a b => le a b = true) (insIdx le i l) := by
  intro l
  induction l with
  | nil => intro _; exact List.pairwise_singleton _ i
  | cons j t ih =>
    intro hp
    obtain ⟨hj, ht⟩ := List.pairwise_cons.mp hp
    unfold insIdx
    by_cases h : le i j
    · rw [if_pos h]
      refine List.Pairwise.cons ?_ hp
      intro b hb
      rcases List.mem_cons.mp hb with rfl | hbt
      · exact h
      · exact htr i j b h (hj b hbt)
    · rw [if_neg h]
      have hji : le j i = true := by
        rcases htot i j with hij | hji
        · exact absurd hij h
        · exact hji
      refine List.Pairwise.cons ?_ (ih ht)
      intro b hb
      rcases List.mem_cons.mp ((insIdx_perm le i t).mem_iff.mp hb) with rfl | hbt
      · exact hji
      · exact hj b hbt

theorem isortIdx_perm (le : Nat → Nat → Bool) :
    ∀ l : List Nat, (isortIdx le l).Perm l := by
  intro l
  induction l with
  | nil => exact List.Perm.refl _
  | cons i t ih =>
    unfold isortIdx
    exact (insIdx_perm le i (isortIdx le t)).trans (List.Perm.cons i ih)

theorem isortIdx_sorted (le : Nat → Nat → Bool)
    (htot : ∀ a b, le a b = true ∨ le b a = true)
    (htr : ∀ a b c, le a b = true → le b c = true → le a c = true) :
    ∀ l : List Nat, List.Pairwise (fun a b => le a b = true) (isortIdx le l) := by
  intro l
  induction l with
  | nil => exact List.Pairwise.nil
  | cons i t ih =>
    unfold isortIdx
    exact insIdx_sorted le htot htr i (isortIdx le t) ih

theorem argsortAsc_perm (scores : List ℚ) :
    (argsortAsc scores).Perm (List.range scores.length) :=
  isortIdx_perm _ _

theorem argsortAsc_sorted (scores : List ℚ) :
    List.Pairwise (fun a b => simLe scores a b = true) (argsortAsc scores) :=
  isortIdx_sorted _ (simLe_total scores) (simLe_trans scores) _

/-- C4 (corrected): `search_query` returns the `min 5 n` rows of highest
similarity, ordered by non-increasing similarity — but rows of *equal*
similarity appear in *reverse* matrix-row order (modelling `np.argsort`
as the stable ascending argsort, which `[::-1]` then reverses), not in
stable row order as claimed; `C4_counterexample` exhibits the reversal.
Every returned index is a matrix row, and every row not returned scores
no higher than any returned one. -/
theorem C4_top5_reverse_ties (scores : List ℚ) :
    ((search_query scores).length = min 5 scores.length) ∧
    List.Pairwise (fun i j => simLe scores j i = true) (search_query scores) ∧
    (∀ i ∈ search_query scores, i < scores.length) ∧
    (∀ j, j < scores.length → j ∉ search_query scores →
      ∀ i ∈ search_query scores, simLe scores j i = true) := by
  have hlenL : (argsortAsc scores).reverse.length = scores.length := by
    rw [List.length_reverse, (argsortAsc_perm scores).length_eq, List.length_range]
  have hsortL : List.Pairwise (fun i j => simLe scores j i = true)
      (argsortAsc scores).reverse := by
    rw [List.pairwise_reverse]
    exact argsortAsc_sorted scores
  have hmemL : ∀ j, j < scores.length → j ∈ (argsortAsc scores).reverse := by
    intro j hj
    rw [List.mem_reverse]
    exact (argsortAsc_perm scores).mem_iff.mpr (List.mem_range.mpr hj)
  refine ⟨?_, ?_, ?_, ?_⟩
  · rw [search_query, List.length_take, hlenL]
  · exact hsortL.sublist (List.take_sublist 5 _)
  · intro i hi
    have : i ∈ (argsortAsc scores).reverse :=
      (List.take_sublist 5 _).subset hi
    rw [List.mem_reverse] at this
    have := (argsortAsc_perm scores).mem_iff.mp this
    exact List.mem_range.mp this
  · intro j hj hnot i hi
    have hjL : j ∈ (argsortAsc scores).reverse := hmemL j hj
    have hsplit := List.take_append_drop 5 (argsortAsc scores).reverse
    have hjdrop : j ∈ (argsortAsc scores).reverse.drop 5 := by
      rcases List.mem_append.mp (hsplit ▸ hjL) with h1 | h2
      · exact absurd h1 hnot
      · exact h2
    have hpw := hsplit ▸ hsortL
    exact ((List.pairwise_append.mp hpw).2.2) i hi j hjdrop

/-- Witness for C4: with scores `[1,2,3,4,5,6]` the result is the top five
rows `[5,4,3,2,1]`; row 0 is excluded and scores no higher than any
returned row. -/
theorem C4_top5_reverse_ties_witness :
    (0 < ([1, 2, 3, 4, 5, 6] : List ℚ).length) ∧
    (0 ∉ search_query ([1, 2, 3, 4, 5, 6] : List ℚ)) ∧
    (∀ i ∈ search_query ([1, 2, 3, 4, 5, 6] : List ℚ),
      simLe ([1, 2, 3, 4, 5, 6] : List ℚ) 0 i = true) :=
  ⟨by decide, by decide,
   (C4_top5_reverse_ties ([1, 2, 3, 4, 5, 6] : List ℚ)).2.2.2 0 (by decide) (by decide)⟩

/-- Counterexample to C4 as stated: two documents with equal similarity to
the query (e.g. two identical matrix rows give equal cosine similarity to
every query) come back as `[1, 0]` — reverse row order — not in the stable
matrix-row order `[0, 1]` the claim asserts. -/
theorem C4_counterexample :
    search_query ([1, 1] : List ℚ) = [1, 0] ∧
    search_query ([1, 1] : List ℚ) ≠ [0, 1] := by
  decide

end Vlr
